import Mathlib

/-!
Active-window engine: embedding of `module/windows/src/ActiveWindow.cpp`.

The C++ member functions of `PaymoActiveWindow::ActiveWindow` are embedded as
Lean functions.  Every operating-system call the source makes is a field of
`Platform` (an oracle for the outcome of that call); the engine's own state
(icon cache, subscription table, counters) is passed explicitly.

* `std::wstring` / `std::string` are lists of characters.
* Handles are natural numbers, `NULL` is `0`.
* A C++ exception leaving a function is the `Except.error` case.
-/

namespace PaymoActiveWindow

/-! ## Strings -/

/-- Wide string, `std::wstring`. -/
abbrev WString := List Char

/-- Narrow string, `std::string`. -/
abbrev CString := List Char

/-- Window handle. -/
abbrev HWND := Nat

/-- Process handle. -/
abbrev HANDLE := Nat

/-- Icon handle. -/
abbrev HICON := Nat

/-- Bitmap handle. -/
abbrev HBITMAP := Nat

/-- Event-hook handle. -/
abbrev HWINEVENTHOOK := Nat

/-- The null handle. -/
def NULL : Nat := 0

/-- Exceptions that can leave the engine's functions. -/
inductive Exn where
  | out_of_range
  | logic_error
  deriving DecidableEq, Repr

/-- Embeds `std::wstring::find_last_of(chars)`: the largest index whose character is one
of `chars`; `none` stands for `npos`. -/
def find_last_of : WString → WString → Option Nat
  | [], _ => none
  | c :: cs, chars =>
    match find_last_of cs chars with
    | some i => some (i + 1)
    | none => if c ∈ chars then some 0 else none

/-- Embeds `std::wstring::substr(pos)` for `pos ≤ size()`. -/
def substr (s : WString) (pos : Nat) : WString := s.drop pos

/-- Embeds `std::wstring::insert(pos, str)`: throws `std::out_of_range` when
`pos > size()`, which is the case for `npos`. -/
def wstring_insert (s : WString) (pos : Option Nat) (str : WString) : Except Exn WString :=
  match pos with
  | none => .error .out_of_range
  | some p =>
    if p ≤ s.length then .ok (s.take p ++ str ++ s.drop p) else .error .out_of_range

/-- Embeds `ActiveWindow::basename` (lines 318-326). -/
def basename (path : WString) : WString :=
  let lastSlash := find_last_of path "\\".toList
  match lastSlash with
  | none => path
  | some i => substr path (i + 1)

/-- Embeds `ActiveWindow::isUWPApp` (lines 328-330). -/
def isUWPApp (path : WString) : Bool :=
  basename path == "ApplicationFrameHost.exe".toList

/-! ## Platform oracles -/

/-- One entry of the version resource translation table. -/
structure LANGCODEPAGE where
  lang : Nat
  codePage : Nat
  deriving DecidableEq, Repr

/-- What `VerQueryValueW` delivers for a string sub-block: the reported length
and the null-terminated text found at the returned pointer. -/
structure VerString where
  len : Nat
  text : WString
  deriving DecidableEq, Repr

/-- A loaded version resource block, seen through `VerQueryValueW`.
`translation` is the answer for `\VarFileInfo\Translation` (`none`: the query
fails; the byte length reported is four times the number of pairs);
`strings` is the answer for any other sub-block path (`none`: the query fails). -/
structure VersionBlock where
  translation : Option (List LANGCODEPAGE)
  strings : WString → Option VerString

/-- An `IStream` positioned for reading: the size `Stat` reports and the bytes
`Read` can deliver. -/
structure IStream where
  cbSize : Nat
  bytes : CString
  deriving DecidableEq, Repr

/-- The properties object of a package manifest: `GetStringValue(L"Logo")`. -/
structure IAppxManifestProperties where
  Logo : WString
  deriving DecidableEq, Repr

/-- A manifest reader: the outcome of `GetProperties` (`none`: it failed). -/
structure IAppxManifestReader where
  GetProperties : Option IAppxManifestProperties
  deriving DecidableEq, Repr

/-- Outcomes of the operating-system calls made by the engine.  Each field is
named after the call it answers. -/
structure Platform where
  /-- The focused top-level window, `NULL` when there is none. -/
  GetForegroundWindow : HWND
  GetWindowTextLengthW : HWND → Nat
  /-- The characters copied into the buffer; the return value is their count. -/
  GetWindowTextW : HWND → Nat → WString
  GetWindowThreadProcessId : HWND → Nat
  /-- The handle for a process id, `NULL` when the open fails. -/
  OpenProcess : Nat → HANDLE
  /-- The image name written to the buffer, `none` when the call fails. -/
  QueryFullProcessImageNameW : HANDLE → Option WString
  /-- The descendant windows of a window, in enumeration order. -/
  EnumChildWindows : HWND → List HWND
  /-- With a null buffer and length 0: the return code and the length written back. -/
  GetPackageFamilyName_probe : HANDLE → Nat × Nat
  /-- With a buffer: the return code, the length written back and the buffer. -/
  GetPackageFamilyName_fill : HANDLE → Nat × Nat × WString
  GetFileVersionInfoSizeW : WString → Nat
  /-- The loaded block, `none` when the call fails. -/
  GetFileVersionInfoW : WString → Option VersionBlock
  /-- The return value and `fileInfo.iIcon`. -/
  SHGetFileInfoW : WString → Nat × Nat
  /-- Whether `SHGetImageList(SHIL_JUMBO)` succeeds. -/
  SHGetImageList : Bool
  /-- The icon handle of `imgList->GetIcon`, `none` when it fails. -/
  ImageList_GetIcon : Nat → Option HICON
  /-- The color bitmap of `GetIconInfo`, `none` when it fails. -/
  GetIconInfo : HICON → Option HBITMAP
  GetObject : HBITMAP → Bool
  /-- Whether `Bitmap::LockBits` returns `Ok`. -/
  Bitmap_LockBits : HBITMAP → Bool
  /-- Whether `SHCreateMemStream` returns a stream. -/
  SHCreateMemStream : Bool
  /-- Whether `image.Save` returns `Ok`, and the stream after `Commit` and `Seek`. -/
  Image_Save : HBITMAP → Bool × IStream
  /-- Call `GetPackageId` followed by `GetPackagePath`: return code, length, buffer. -/
  GetPackagePath : HANDLE → Nat × Nat × WString
  /-- Whether `CoCreateInstance(AppxFactory)` succeeds. -/
  CoCreateInstance_AppxFactory : Bool
  /-- The stream opened on a file, `none` when it fails. -/
  SHCreateStreamOnFileEx : WString → Option IStream
  /-- The reader for a manifest stream, `none` when it fails. -/
  CreateManifestReader : IStream → Option IAppxManifestReader
  PathFileExistsW : WString → Bool

/-- Constant `MAX_PATH`. -/
def MAX_PATH : Nat := 260

/-- Constant `ERROR_SUCCESS`. -/
def ERROR_SUCCESS : Nat := 0

/-- Constant `APPMODEL_ERROR_NO_PACKAGE`. -/
def APPMODEL_ERROR_NO_PACKAGE : Nat := 15700

/-- Constant `INVALID_HANDLE_VALUE`, `(HANDLE)-1` on a 64-bit target. -/
def INVALID_HANDLE_VALUE : Nat := 2 ^ 64 - 1

/-- Constant `EVENT_SYSTEM_FOREGROUND`. -/
def EVENT_SYSTEM_FOREGROUND : Nat := 0x0003

/-- Constant `EVENT_OBJECT_NAMECHANGE`. -/
def EVENT_OBJECT_NAMECHANGE : Nat := 0x800C

/-- Constant `WM_TIMER`. -/
def WM_TIMER : Nat := 0x0113

/-- The null character used to zero-initialise buffers. -/
def NUL : Char := Char.ofNat 0

/-! ## Window title, process path, application name -/

/-- Embeds `ActiveWindow::getWindowTitle` (lines 133-147). -/
def getWindowTitle (P : Platform) (hWindow : HWND) : WString :=
  let len := P.GetWindowTextLengthW hWindow
  if len = 0 then []
  else
    let copied := (P.GetWindowTextW hWindow (len + 1)).take len
    if copied.length = 0 then []
    else
      let buf := copied ++ List.replicate (len + 1 - copied.length) NUL
      buf.take len

/-- Embeds `ActiveWindow::getProcessPath` (lines 149-158). -/
def getProcessPath (P : Platform) (hProc : HANDLE) : WString :=
  match P.QueryFullProcessImageNameW hProc with
  | none => []
  | some name => name.take MAX_PATH

/-- One uppercase hexadecimal digit. -/
def hexDigit (d : Nat) : Char :=
  if d < 10 then Char.ofNat (48 + d) else Char.ofNat (55 + d)

/-- A `WORD` streamed with `std::uppercase`, `std::setfill(L'0')`, `std::setw(4)`,
`std::hex`: four uppercase hexadecimal digits. -/
def hex4 (w : Nat) : WString :=
  let v := w % 65536
  [hexDigit (v / 4096 % 16), hexDigit (v / 256 % 16), hexDigit (v / 16 % 16), hexDigit (v % 16)]

/-- The sub-block path built at lines 190-197 for a language/code-page pair. -/
def localePath (active : LANGCODEPAGE) : WString :=
  "\\StringFileInfo\\".toList ++ hex4 active.lang ++ hex4 active.codePage
    ++ "\\FileDescription".toList

/-- The default pair set at lines 178-179. -/
def defaultLangCodePage : LANGCODEPAGE := { lang := 0x0409, codePage := 0x04E4 }

/-- The pair chosen at lines 178-187: the default pair, overwritten by the first
pair of the translation table when that query succeeds with a non-zero length. -/
def activeLangCodePage (data : VersionBlock) : LANGCODEPAGE :=
  let active := defaultLangCodePage
  match data.translation with
  | some (first :: _) => { lang := first.lang, codePage := first.codePage }
  | _ => active

/-- Lines 199-214 of `ActiveWindow::getProcessName`: the file description the
block holds for a language/code-page pair, empty when the query fails or
reports length zero. -/
def fileDescription (data : VersionBlock) (active : LANGCODEPAGE) : WString :=
  match data.strings (localePath active) with
  | none => []
  | some localDesc => if localDesc.len = 0 then [] else localDesc.text

/-- Lines 173-214 of `ActiveWindow::getProcessName`: the name read from a loaded
version resource block. -/
def getProcessNameFromBlock (data : VersionBlock) : WString :=
  let active := activeLangCodePage data
  fileDescription data active

/-- Embeds `ActiveWindow::getProcessName` (lines 160-215). -/
def getProcessName (P : Platform) (path : WString) : WString :=
  let infoSize := P.GetFileVersionInfoSizeW path
  if infoSize = 0 then []
  else
    match P.GetFileVersionInfoW path with
    | none => []
    | some data => getProcessNameFromBlock data

/-- Embeds `ActiveWindow::getUWPPackage` (lines 300-316). -/
def getUWPPackage (P : Platform) (hProc : HANDLE) : WString :=
  let len := (P.GetPackageFamilyName_probe hProc).2
  if len = 0 then []
  else
    let (code, len, buf) := P.GetPackageFamilyName_fill hProc
    if code ≠ ERROR_SUCCESS then []
    else buf.take (len - 1)

/-! ## Icon cache -/

/-- Modelled from the spec: the icon-cache collaborator (class `IconCache`, whose
header and implementation are not part of the source tree).  The spec gives its
interface as "`has(key) → bool`, `get(key) → value`, `set(key, value)`; fixed
capacity, eviction policy opaque to this core; constructed once with a capacity
parameter".  `C` is the type of cache states. -/
structure IconCacheApi (C : Type) where
  create : Nat → C
  has : C → WString → Bool
  get : C → WString → CString
  set : C → WString → CString → C

/-- A cache only returns values previously stored in it: a fresh cache holds no
key, and after `set c k v` a key that is present yields either `v` or the value
it already yielded in `c`. -/
structure IconCacheApi.ReturnsStored {C : Type} (api : IconCacheApi C) : Prop where
  fresh : ∀ n k, api.has (api.create n) k = false
  stored : ∀ c k v k0, api.has (api.set c k v) k0 = true →
    api.get (api.set c k v) k0 = v ∨
      (api.has c k0 = true ∧ api.get (api.set c k v) k0 = api.get c k0)

/-- A call made on the cache collaborator. -/
inductive CacheOp where
  | has (key : WString)
  | get (key : WString)
  | set (key : WString) (value : CString)
  deriving DecidableEq, Repr

/-- Outcome of a function that touches the icon cache: the value returned (or the
exception thrown), the `iconCache` member afterwards, and the cache calls made,
in order. -/
structure Res (C : Type) (α : Type) where
  val : Except Exn α
  cache : Option C
  ops : List CacheOp

/-- The test `this->iconCache != NULL && this->iconCache->has(&key)`. -/
def cacheHit {C : Type} (api : IconCacheApi C) (iconCache : Option C) (key : WString) : Bool :=
  match iconCache with
  | none => false
  | some c => api.has c key

/-- The cache calls made by evaluating `cacheHit`. -/
def cacheHitOps {C : Type} (iconCache : Option C) (key : WString) : List CacheOp :=
  match iconCache with
  | none => []
  | some _ => [CacheOp.has key]

/-- The value of `this->iconCache->get(&key)` (only evaluated after a hit). -/
def cacheGet {C : Type} (api : IconCacheApi C) (iconCache : Option C) (key : WString) : CString :=
  match iconCache with
  | none => []
  | some c => api.get c key

/-- The statement `if (this->iconCache != NULL) this->iconCache->set(&key, &icon);`. -/
def cacheStore {C : Type} (api : IconCacheApi C) (iconCache : Option C) (key : WString)
    (icon : CString) : Option C × List CacheOp :=
  match iconCache with
  | none => (none, [])
  | some c => (some (api.set c key icon), [CacheOp.set key icon])

/-! ## Icon resolution -/

/-- The literal `"data:image/png;base64,"`. -/
def dataUriHead : CString := "data:image/png;base64,".toList

/-- Embeds `ActiveWindow::getHighResolutionIcon` (lines 332-355). -/
def getHighResolutionIcon (P : Platform) (path : WString) : HICON :=
  let (ret, iIcon) := P.SHGetFileInfoW path
  if ret = INVALID_HANDLE_VALUE then NULL
  else if !P.SHGetImageList then NULL
  else
    match P.ImageList_GetIcon iIcon with
    | none => NULL
    | some hIcon => hIcon

/-- Embeds `ActiveWindow::getPngFromIcon` (lines 357-402); `none` is the null stream. -/
def getPngFromIcon (P : Platform) (hIcon : HICON) : Option IStream :=
  match P.GetIconInfo hIcon with
  | none => none
  | some hbmColor =>
    if !P.GetObject hbmColor then none
    else if !P.Bitmap_LockBits hbmColor then none
    else if !P.SHCreateMemStream then none
    else
      let (statOk, pngStream) := P.Image_Save hbmColor
      if statOk then some pngStream else none

/-- Embeds `ActiveWindow::encodeImageStream` (lines 459-475).  The buffer has `cbSize`
zero bytes, `Read` overwrites the first `read` of them, and the whole buffer is
encoded. -/
def encodeImageStream (base64_encode : CString → CString) (pngStream : IStream) : CString :=
  let got := pngStream.bytes.take pngStream.cbSize
  let read := got.length
  let buf := got ++ List.replicate (pngStream.cbSize - read) NUL
  if read = 0 then []
  else base64_encode buf

/-- Embeds `ActiveWindow::getWindowIcon` (lines 217-248). -/
def getWindowIcon {C : Type} (base64_encode : CString → CString) (api : IconCacheApi C)
    (P : Platform) (path : WString) (iconCache : Option C) : Res C CString :=
  if cacheHit api iconCache path then
    ⟨.ok (cacheGet api iconCache path), iconCache, cacheHitOps iconCache path ++ [CacheOp.get path]⟩
  else
    let hIcon := getHighResolutionIcon P path
    if hIcon = NULL then ⟨.ok [], iconCache, cacheHitOps iconCache path⟩
    else
      match getPngFromIcon P hIcon with
      | none => ⟨.ok [], iconCache, cacheHitOps iconCache path⟩
      | some pngStream =>
        let iconBase64 := encodeImageStream base64_encode pngStream
        if iconBase64 = [] then ⟨.ok [], iconCache, cacheHitOps iconCache path⟩
        else
          let icon := dataUriHead ++ iconBase64
          let stored := cacheStore api iconCache path icon
          ⟨.ok icon, stored.1, cacheHitOps iconCache path ++ stored.2⟩

/-- Embeds `ActiveWindow::getUWPPackagePath` (lines 404-423). -/
def getUWPPackagePath (P : Platform) (hProc : HANDLE) : WString :=
  let (code, len, buf) := P.GetPackagePath hProc
  if code ≠ ERROR_SUCCESS then []
  else buf.take (len - 1)

/-- Embeds `ActiveWindow::getUWPPackageProperties` (lines 425-457); `none` is the null
pointer. -/
def getUWPPackageProperties (P : Platform) (pkgPath : WString) : Option IAppxManifestProperties :=
  if !P.CoCreateInstance_AppxFactory then none
  else
    let manifestPath := pkgPath ++ "\\AppxManifest.xml".toList
    match P.SHCreateStreamOnFileEx manifestPath with
    | none => none
    | some manifestStream =>
      match P.CreateManifestReader manifestStream with
      | none => none
      | some manifestReader => manifestReader.GetProperties

/-- Lines 270-276 of `ActiveWindow::getUWPIcon`: the path of the logo file that is
opened next. -/
def uwpLogoPath (P : Platform) (pkgPath : WString) (logo : WString) : Except Exn WString :=
  let logoPath := pkgPath ++ "\\".toList ++ logo
  if !P.PathFileExistsW logoPath then
    let dotPos := find_last_of logoPath ".".toList
    wstring_insert logoPath dotPos ".scale-100".toList
  else .ok logoPath

/-- Embeds `ActiveWindow::getUWPIcon` (lines 250-298). -/
def getUWPIcon {C : Type} (base64_encode : CString → CString) (api : IconCacheApi C)
    (P : Platform) (hProc : HANDLE) (iconCache : Option C) : Res C CString :=
  let pkgPath := getUWPPackagePath P hProc
  if pkgPath = [] then ⟨.ok [], iconCache, []⟩
  else if cacheHit api iconCache pkgPath then
    ⟨.ok (cacheGet api iconCache pkgPath), iconCache,
      cacheHitOps iconCache pkgPath ++ [CacheOp.get pkgPath]⟩
  else
    match getUWPPackageProperties P pkgPath with
    | none => ⟨.ok [], iconCache, cacheHitOps iconCache pkgPath⟩
    | some properties =>
      match uwpLogoPath P pkgPath properties.Logo with
      | .error e => ⟨.error e, iconCache, cacheHitOps iconCache pkgPath⟩
      | .ok logoPath =>
        match P.SHCreateStreamOnFileEx logoPath with
        | none => ⟨.ok [], iconCache, cacheHitOps iconCache pkgPath⟩
        | some pngStream =>
          let iconBase64 := encodeImageStream base64_encode pngStream
          if iconBase64 = [] then ⟨.ok [], iconCache, cacheHitOps iconCache pkgPath⟩
          else
            let icon := dataUriHead ++ iconBase64
            let stored := cacheStore api iconCache pkgPath icon
            ⟨.ok icon, stored.1, cacheHitOps iconCache pkgPath ++ stored.2⟩

/-! ## Window resolution -/

/-- The record `WindowInfo`. -/
structure WindowInfo where
  title : WString
  application : WString
  path : WString
  pid : Nat
  isUWPApp : Bool
  uwpPackage : WString
  icon : CString
  deriving DecidableEq, Repr

/-- Modelled from the spec: the value of `new WindowInfo()`; the struct is
declared in the header that is not part of the source tree.  The spec has every
text field possibly empty and "for all resolved records where `isPackagedApp` is
false, `packageIdentity` is empty", so a fresh record has empty strings and the
packaged-app flag clear. -/
def WindowInfo.fresh : WindowInfo :=
  { title := [], application := [], path := [], pid := 0, isUWPApp := false,
    uwpPackage := [], icon := [] }

/-- The result object handed to `EnumChildWindowsCb`. -/
structure EnumChildWindowsCbParam where
  path : WString
  hProc : HANDLE
  ok : Bool
  deriving DecidableEq, Repr

/-- Modelled from the spec: the constructor `EnumChildWindowsCbParam(this)`,
declared in the header that is not part of the source tree.  The spec has the
resolution "abort and return null" when no descendant qualifies, so a fresh
result object is not `ok`; it holds no path and no handle. -/
def EnumChildWindowsCbParam.fresh : EnumChildWindowsCbParam :=
  { path := [], hProc := NULL, ok := false }

/-- Embeds `ActiveWindow::EnumChildWindowsCb` (lines 518-540): the updated result object
and the return value (`true`: continue the enumeration). -/
def EnumChildWindowsCb (P : Platform) (hWindow : HWND) (cbParam : EnumChildWindowsCbParam) :
    EnumChildWindowsCbParam × Bool :=
  let pid := P.GetWindowThreadProcessId hWindow
  let hProc := P.OpenProcess pid
  if hProc = NULL then (cbParam, true)
  else
    let cbParam := { cbParam with path := getProcessPath P hProc, hProc := hProc }
    if (P.GetPackageFamilyName_probe cbParam.hProc).1 = APPMODEL_ERROR_NO_PACKAGE then
      (cbParam, true)
    else
      ({ cbParam with ok := true }, false)

/-- The platform routine `EnumChildWindows(h, EnumChildWindowsCb, cbParam)`: the
callback is applied to the descendant windows in order until it returns false. -/
def enumChildWindows (P : Platform) :
    List HWND → EnumChildWindowsCbParam → EnumChildWindowsCbParam
  | [], cbParam => cbParam
  | hWindow :: rest, cbParam =>
    match EnumChildWindowsCb P hWindow cbParam with
    | (cbParam, true) => enumChildWindows P rest cbParam
    | (cbParam, false) => cbParam

/-- Lines 90-94 of `ActiveWindow::getActiveWindow`: the application name. -/
def resolveApplication (P : Platform) (path : WString) : WString :=
  let application := getProcessName P path
  if application.length = 0 then basename path else application

/-- Lines 90-108 of `ActiveWindow::getActiveWindow`: application name, package
identity and icon are filled in and the record is returned.  `hProc` is the
handle of the packaged process when the packaged-app flag is set. -/
def describeWindow {C : Type} (base64_encode : CString → CString) (api : IconCacheApi C)
    (P : Platform) (info : WindowInfo) (hProc : HANDLE) (iconCache : Option C) :
    Res C (Option WindowInfo) :=
  let info := { info with application := resolveApplication P info.path }
  if info.isUWPApp then
    let info := { info with uwpPackage := getUWPPackage P hProc }
    let r := getUWPIcon base64_encode api P hProc iconCache
    match r.val with
    | .error e => ⟨.error e, r.cache, r.ops⟩
    | .ok icon => ⟨.ok (some { info with icon := icon }), r.cache, r.ops⟩
  else
    let r := getWindowIcon base64_encode api P info.path iconCache
    match r.val with
    | .error e => ⟨.error e, r.cache, r.ops⟩
    | .ok icon => ⟨.ok (some { info with icon := icon }), r.cache, r.ops⟩

/-- Embeds `ActiveWindow::getActiveWindow` (lines 42-109); `none` is the null pointer. -/
def getActiveWindow {C : Type} (base64_encode : CString → CString) (api : IconCacheApi C)
    (P : Platform) (iconCache : Option C) : Res C (Option WindowInfo) :=
  let h := P.GetForegroundWindow
  if h = NULL then ⟨.ok none, iconCache, []⟩
  else
    let info := WindowInfo.fresh
    let info := { info with title := getWindowTitle P h }
    let pid := P.GetWindowThreadProcessId h
    let info := { info with pid := pid % 2 ^ 32 }
    let hProc := P.OpenProcess pid
    if hProc = NULL then ⟨.ok none, iconCache, []⟩
    else
      let info := { info with path := getProcessPath P hProc }
      if isUWPApp info.path then
        let info := { info with isUWPApp := true }
        let cbParam := enumChildWindows P (P.EnumChildWindows h) EnumChildWindowsCbParam.fresh
        if !cbParam.ok then ⟨.ok none, iconCache, []⟩
        else
          let info := { info with path := cbParam.path }
          let hProc := cbParam.hProc
          describeWindow base64_encode api P info hProc iconCache
      else
        describeWindow base64_encode api P info hProc iconCache

/-! ## Watch registry -/

/-- What invoking a subscriber callback does: it returns, or it raises an error. -/
inductive CallbackOutcome where
  | returned
  | raised
  deriving DecidableEq, Repr

/-- A subscriber callback, seen through what its invocation does for a given
argument (`none` is the null pointer). -/
abbrev watch_callback := Option WindowInfo → CallbackOutcome

/-- Assignment `m[key] = value` on a `std::unordered_map`, kept as a list of entries. -/
def mapAssign {β : Type} (m : List (Nat × β)) (key : Nat) (value : β) : List (Nat × β) :=
  if m.any (fun e => e.1 == key) then
    m.map (fun e => if e.1 == key then (key, value) else e)
  else m ++ [(key, value)]

/-- Erasure `m.erase(key)` on a `std::unordered_map`. -/
def mapErase {β : Type} (m : List (Nat × β)) (key : Nat) : List (Nat × β) :=
  m.filter (fun e => !(e.1 == key))

/-- The members of an `ActiveWindow` instance that the embedded functions read
or write.  `watchThread` tells whether the thread pointer is non-null and
`mutexLocked` whether `this->mutex` is held. -/
structure ActiveWindow (C : Type) where
  iconCache : Option C
  nextWatchId : Nat
  watches : List (Nat × watch_callback)
  watchThread : Bool
  threadShouldExit : Bool
  mutexLocked : Bool

/-- Modelled from the spec: the default member initialisers of class
`ActiveWindow`, declared in the header that is not part of the source tree: no
icon cache ("capacity 0 ⇒ caching disabled entirely"), no watch thread (it is
"started lazily on the first subscription"), an empty registry.  The first
identifier is a parameter. -/
def ActiveWindow.declared (C : Type) (firstWatchId : Nat) : ActiveWindow C :=
  { iconCache := none, nextWatchId := firstWatchId, watches := [], watchThread := false,
    threadShouldExit := false, mutexLocked := false }

/-- The constructor `ActiveWindow::ActiveWindow` (lines 7-21).  `encoderClsId` is
the value of `GdiPlusUtils::GetEncoderClsId`. -/
def ActiveWindow.construct {C : Type} (api : IconCacheApi C) (encoderClsId : Int)
    (iconCacheSize : Nat) (firstWatchId : Nat) : Except Exn (ActiveWindow C) :=
  if encoderClsId < 0 then .error .logic_error
  else if iconCacheSize > 0 then
    .ok { ActiveWindow.declared C firstWatchId with iconCache := some (api.create iconCacheSize) }
  else .ok (ActiveWindow.declared C firstWatchId)

/-- Embeds `ActiveWindow::watchActiveWindow` (lines 111-125): the identifier returned and
the instance afterwards.  `watchBits` is the width of the unsigned type
`watch_t`, declared in the header that is not part of the source tree. -/
def watchActiveWindow {C : Type} (watchBits : Nat) (aw : ActiveWindow C) (cb : watch_callback) :
    Nat × ActiveWindow C :=
  let watchId := aw.nextWatchId
  let aw := { aw with nextWatchId := (aw.nextWatchId + 1) % 2 ^ watchBits }
  let aw := { aw with mutexLocked := true }
  let aw := { aw with watches := mapAssign aw.watches watchId cb }
  let aw := { aw with mutexLocked := false }
  let aw := if aw.watchThread = false then
      { aw with threadShouldExit := false, watchThread := true }
    else aw
  (watchId, aw)

/-- Embeds `ActiveWindow::unwatchActiveWindow` (lines 127-131). -/
def unwatchActiveWindow {C : Type} (aw : ActiveWindow C) (watch : Nat) : ActiveWindow C :=
  let aw := { aw with mutexLocked := true }
  let aw := { aw with watches := mapErase aw.watches watch }
  { aw with mutexLocked := false }

/-- A call made by the host on the registry. -/
inductive WatchOp where
  | watch (cb : watch_callback)
  | unwatch (id : Nat)

/-- A sequence of registry calls made on one instance from one caller context:
the identifiers returned by the `watchActiveWindow` calls, in call order, and
the instance afterwards. -/
def runWatchOps {C : Type} (watchBits : Nat) :
    List WatchOp → ActiveWindow C → List Nat × ActiveWindow C
  | [], aw => ([], aw)
  | WatchOp.watch cb :: rest, aw =>
    let r := watchActiveWindow watchBits aw cb
    let rs := runWatchOps watchBits rest r.2
    (r.1 :: rs.1, rs.2)
  | WatchOp.unwatch id :: rest, aw =>
    runWatchOps watchBits rest (unwatchActiveWindow aw id)

/-- The number of `watchActiveWindow` calls in a sequence. -/
def watchCount : List WatchOp → Nat
  | [] => 0
  | WatchOp.watch _ :: rest => watchCount rest + 1
  | WatchOp.unwatch _ :: rest => watchCount rest

/-! ## Notification handler -/

/-- The statement `try { it->second(info); } catch (...) { }` (lines 565-570):
`true` when an error leaves the statement. -/
def tryInvoke (cb : watch_callback) (info : Option WindowInfo) : Bool :=
  match cb info with
  | CallbackOutcome.returned => false
  | CallbackOutcome.raised => false

/-- The loop of lines 564-571 over the registry: the invocations made, in order
(subscription identifier and argument), and whether an error left the loop. -/
def notifyEvery : List (Nat × watch_callback) → Option WindowInfo →
    List (Nat × Option WindowInfo) × Bool
  | [], _ => ([], false)
  | (id, cb) :: rest, info =>
    if tryInvoke cb info then ([(id, info)], true)
    else
      let r := notifyEvery rest info
      ((id, info) :: r.1, r.2)

/-- What leaves `WinEventProcCb` other than a normal return. -/
inductive Escaped where
  | exn (e : Exn)
  | callbackError
  deriving DecidableEq, Repr

/-- Outcome of one run of `WinEventProcCb`: `escaped = none` is a normal return,
`aw` the instance afterwards, `calls` the callback invocations made. -/
structure Handled (C : Type) where
  escaped : Option Escaped
  aw : ActiveWindow C
  calls : List (Nat × Option WindowInfo)

/-- Embeds `ActiveWindow::WinEventProcCb` (lines 542-575).  `aw` is the instance that
`winEventProcCbCtx` holds for the hook; `runWatchThread` stores it before its
message loop delivers the first notification. -/
def WinEventProcCb {C : Type} (base64_encode : CString → CString) (api : IconCacheApi C)
    (P : Platform) (aw : ActiveWindow C) (event : Nat) (hWindow : HWND) : Handled C :=
  if event ≠ EVENT_SYSTEM_FOREGROUND ∧ event ≠ EVENT_OBJECT_NAMECHANGE then ⟨none, aw, []⟩
  else
    let foregroundWindow := P.GetForegroundWindow
    if event = EVENT_OBJECT_NAMECHANGE ∧ hWindow ≠ foregroundWindow then ⟨none, aw, []⟩
    else
      let r := getActiveWindow base64_encode api P aw.iconCache
      let aw := { aw with iconCache := r.cache }
      match r.val with
      | .error e => ⟨some (Escaped.exn e), aw, []⟩
      | .ok info =>
        let aw := { aw with mutexLocked := true }
        let n := notifyEvery aw.watches info
        if n.2 then ⟨some Escaped.callbackError, aw, n.1⟩
        else ⟨none, { aw with mutexLocked := false }, n.1⟩

/-! ## Watch thread -/

/-- A retrieved message: its identifier and its parameters. -/
structure MSG where
  message : Nat
  wParam : Nat
  lParam : Nat
  deriving DecidableEq, Repr

/-- One round of the message loop as the thread sees it: the return value of
`GetMessage`, the message it filled in, and the value of `threadShouldExit`
at the time the round loads it. -/
structure Round where
  getMsgRet : Int
  msg : MSG
  threadShouldExit : Bool
  deriving DecidableEq, Repr

/-- What one round of the loop does. -/
inductive LoopStep where
  | next
  | leave
  | dispatch (msg : MSG)
  deriving DecidableEq, Repr

/-- The body of the `for (;;)` loop (lines 489-503).  The condition
`msg.message = WM_TIMER` assigns `WM_TIMER` to the message identifier and is
true when the assigned value is non-zero. -/
def loopBody (r : Round) : LoopStep :=
  if r.getMsgRet = -1 then LoopStep.next
  else
    let msg := { r.msg with message := WM_TIMER }
    if msg.message ≠ 0 then
      if r.threadShouldExit then LoopStep.leave
      else LoopStep.dispatch msg
    else LoopStep.dispatch msg

/-- The `for (;;)` loop over the rounds that occur: the messages handed to
`TranslateMessage` and `DispatchMessage`, in order, and whether the loop was
left (`false`: the rounds ran out with the thread still waiting in `GetMessage`). -/
def messageLoop : List Round → List MSG × Bool
  | [] => ([], false)
  | r :: rest =>
    match loopBody r with
    | LoopStep.next => messageLoop rest
    | LoopStep.leave => ([], true)
    | LoopStep.dispatch msg =>
      let t := messageLoop rest
      (msg :: t.1, t.2)

/-- An effect of the watch thread on the platform. -/
inductive ThreadEffect where
  | SetWinEventHook (hHook : HWINEVENTHOOK)
  | SetTimer (timer : Nat)
  | DispatchMessage (msg : MSG)
  | KillTimer (timer : Nat)
  | UnhookWinEvent (hHook : HWINEVENTHOOK)
  deriving DecidableEq, Repr

/-- Outcome of `runWatchThread`: its platform effects in order, the
hook-ownership table afterwards, and whether the function returned. -/
structure WatchThreadRun where
  effects : List ThreadEffect
  winEventProcCbCtx : List (Nat × Nat)
  returned : Bool
  deriving DecidableEq, Repr

/-- Embeds `ActiveWindow::runWatchThread` (lines 477-516).  `hHook` and `timer` are the
values returned by `SetWinEventHook` and `SetTimer`, `self` identifies the engine
that owns the thread, `ctx` is the hook-ownership table on entry. -/
def runWatchThread (hHook : HWINEVENTHOOK) (timer : Nat) (self : Nat) (ctx : List (Nat × Nat))
    (rounds : List Round) : WatchThreadRun :=
  let ctx := mapAssign ctx hHook self
  let t := messageLoop rounds
  let effects := [ThreadEffect.SetWinEventHook hHook, ThreadEffect.SetTimer timer]
    ++ t.1.map ThreadEffect.DispatchMessage
  if t.2 then
    ⟨effects ++ [ThreadEffect.KillTimer timer, ThreadEffect.UnhookWinEvent hHook],
      mapErase ctx hHook, true⟩
  else ⟨effects, ctx, false⟩

/-! ## Concrete instances

A cache, an encoder and platforms used to evaluate the functions above on
concrete inputs. -/

/-- Modelled from the spec: one icon cache matching the collaborator's interface
("fixed capacity", set/has/get), kept as a list of entries with the newest first;
when the capacity is exceeded the oldest entries are dropped. -/
def listCache : IconCacheApi (Nat × List (WString × CString)) where
  create := fun n => (n, [])
  has := fun c k => (c.2.lookup k).isSome
  get := fun c k => (c.2.lookup k).getD []
  set := fun c k v => (c.1, ((k, v) :: c.2.filter (fun e => !(e.1 == k))).take c.1)

/-- A stand-in for the external `base64_encode`: one output character per input
byte. -/
def stubEncode : CString → CString := fun bytes => List.replicate bytes.length 'A'

/-- A platform on which there is no foreground window and every call fails. -/
def Platform.blank : Platform where
  GetForegroundWindow := NULL
  GetWindowTextLengthW := fun _ => 0
  GetWindowTextW := fun _ _ => []
  GetWindowThreadProcessId := fun _ => 0
  OpenProcess := fun _ => NULL
  QueryFullProcessImageNameW := fun _ => none
  EnumChildWindows := fun _ => []
  GetPackageFamilyName_probe := fun _ => (APPMODEL_ERROR_NO_PACKAGE, 0)
  GetPackageFamilyName_fill := fun _ => (APPMODEL_ERROR_NO_PACKAGE, 0, [])
  GetFileVersionInfoSizeW := fun _ => 0
  GetFileVersionInfoW := fun _ => none
  SHGetFileInfoW := fun _ => (INVALID_HANDLE_VALUE, 0)
  SHGetImageList := false
  ImageList_GetIcon := fun _ => none
  GetIconInfo := fun _ => none
  GetObject := fun _ => false
  Bitmap_LockBits := fun _ => false
  SHCreateMemStream := false
  Image_Save := fun _ => (false, ⟨0, []⟩)
  GetPackagePath := fun _ => (1, 0, [])
  CoCreateInstance_AppxFactory := false
  SHCreateStreamOnFileEx := fun _ => none
  CreateManifestReader := fun _ => none
  PathFileExistsW := fun _ => false

/-- A platform whose foreground window belongs to the process running
`C:\apps\tool.exe`, a file without version resource and without icon. -/
def toolPlatform : Platform :=
  { Platform.blank with
    GetForegroundWindow := 1
    GetWindowThreadProcessId := fun _ => 7
    OpenProcess := fun _ => 9
    QueryFullProcessImageNameW := fun _ => some "C:\\apps\\tool.exe".toList }

/-- The record `getActiveWindow` returns on `toolPlatform`. -/
def toolRecord : WindowInfo :=
  { title := [], application := "tool.exe".toList, path := "C:\\apps\\tool.exe".toList,
    pid := 7, isUWPApp := false, uwpPackage := [], icon := [] }

/-- A callback that returns normally. -/
def quietCallback : watch_callback := fun _ => CallbackOutcome.returned

/-- A callback that raises an error on every invocation. -/
def raisingCallback : watch_callback := fun _ => CallbackOutcome.raised

/-- Subscribe, unsubscribe identifier 5, subscribe again. -/
def sampleWatchOps : List WatchOp :=
  [WatchOp.watch quietCallback, WatchOp.unwatch 5, WatchOp.watch quietCallback]

/-! ## Icon contract -/

/-- An icon string of the contract: empty, or the literal head
`data:image/png;base64,` followed by a non-empty output of the encoder. -/
def WellFormedIcon (base64_encode : CString → CString) (icon : CString) : Prop :=
  icon = [] ∨ ∃ bytes, base64_encode bytes ≠ [] ∧ icon = dataUriHead ++ base64_encode bytes

/-- Every value the cache can return is an icon string of the contract. -/
def CacheWellFormed {C : Type} (base64_encode : CString → CString) (api : IconCacheApi C)
    (iconCache : Option C) : Prop :=
  ∀ c, iconCache = some c → ∀ k, api.has c k = true → WellFormedIcon base64_encode (api.get c k)

/-- A call that resolves an icon, with the platform it runs against. -/
inductive IconCall where
  | getWindowIcon (P : Platform) (path : WString)
  | getUWPIcon (P : Platform) (hProc : HANDLE)
  | getActiveWindow (P : Platform)

/-- The icon string a call returns (none when it throws or returns the null
record) and the `iconCache` member afterwards. -/
def IconCall.run {C : Type} (base64_encode : CString → CString) (api : IconCacheApi C) :
    IconCall → Option C → List CString × Option C
  | IconCall.getWindowIcon P path, iconCache =>
    let r := PaymoActiveWindow.getWindowIcon base64_encode api P path iconCache
    match r.val with
    | .ok icon => ([icon], r.cache)
    | .error _ => ([], r.cache)
  | IconCall.getUWPIcon P hProc, iconCache =>
    let r := PaymoActiveWindow.getUWPIcon base64_encode api P hProc iconCache
    match r.val with
    | .ok icon => ([icon], r.cache)
    | .error _ => ([], r.cache)
  | IconCall.getActiveWindow P, iconCache =>
    let r := PaymoActiveWindow.getActiveWindow base64_encode api P iconCache
    match r.val with
    | .ok (some info) => ([info.icon], r.cache)
    | _ => ([], r.cache)

/-- The icon strings returned by a sequence of calls on one instance, in call
order. -/
def runIconCalls {C : Type} (base64_encode : CString → CString) (api : IconCacheApi C) :
    List IconCall → Option C → List CString
  | [], _ => []
  | call :: rest, iconCache =>
    let r := call.run base64_encode api iconCache
    r.1 ++ runIconCalls base64_encode api rest r.2

/-- A platform on which the icon of every file is rendered to the three-byte
stream `PNG`. -/
def iconPlatform : Platform :=
  { Platform.blank with
    SHGetFileInfoW := fun _ => (1, 3)
    SHGetImageList := true
    ImageList_GetIcon := fun _ => some 11
    GetIconInfo := fun _ => some 12
    GetObject := fun _ => true
    Bitmap_LockBits := fun _ => true
    SHCreateMemStream := true
    Image_Save := fun _ => (true, ⟨3, "PNG".toList⟩) }

/-- An instance built with an icon cache of capacity 4 and first identifier 1. -/
def sampleEngine : ActiveWindow (Nat × List (WString × CString)) :=
  { ActiveWindow.declared (Nat × List (WString × CString)) 1 with
    iconCache := some (listCache.create 4) }

/-- The icon of `C:\apps\tool.exe` is asked for twice: first on a platform that
renders it, then on a platform where every call fails. -/
def sampleIconCalls : List IconCall :=
  [IconCall.getWindowIcon iconPlatform "C:\\apps\\tool.exe".toList,
   IconCall.getWindowIcon Platform.blank "C:\\apps\\tool.exe".toList]

/-- Whether a cache call is a `set`. -/
def CacheOp.isSet : CacheOp → Bool
  | CacheOp.set _ _ => true
  | _ => false

/-- A version resource block whose translation table lists German (0x0407) with
code page 0x04B0 first, and which holds a file description both for that pair
and for the default pair 0x0409/0x04E4. -/
def germanBlock : VersionBlock where
  translation := some [{ lang := 0x0407, codePage := 0x04B0 }]
  strings := fun subBlock =>
    if subBlock = "\\StringFileInfo\\040904E4\\FileDescription".toList then
      some { len := 5, text := "Tool".toList }
    else if subBlock = "\\StringFileInfo\\040704B0\\FileDescription".toList then
      some { len := 9, text := "Werkzeug".toList }
    else none

/-- A version resource block whose translation table lists a pair for which the
block holds no file description, while it holds one for the default pair. -/
def orphanBlock : VersionBlock where
  translation := some [{ lang := 0x0407, codePage := 0x04B0 }]
  strings := fun subBlock =>
    if subBlock = "\\StringFileInfo\\040904E4\\FileDescription".toList then
      some { len := 5, text := "Tool".toList }
    else none

/-- A version resource block without translation table that holds a file
description for the default pair. -/
def plainBlock : VersionBlock where
  translation := none
  strings := fun subBlock =>
    if subBlock = "\\StringFileInfo\\040904E4\\FileDescription".toList then
      some { len := 5, text := "Tool".toList }
    else none

/-- A platform on which every file carries the given version resource block. -/
def versionPlatform (data : VersionBlock) : Platform :=
  { Platform.blank with
    GetFileVersionInfoSizeW := fun _ => 1024
    GetFileVersionInfoW := fun _ => some data }

/-- A platform with a package installed in `C:\Apps\Calc_1.0` whose manifest
declares the logo `Assets\Logo`, a name without extension.  No logo file exists
under the literal name; the only other file that can be opened is
`C:\Apps\Calc_1.scale-100.0\Assets\Logo`. -/
def logoPlatform : Platform :=
  { Platform.blank with
    GetPackagePath := fun _ => (ERROR_SUCCESS, 17, "C:\\Apps\\Calc_1.0".toList ++ [NUL])
    CoCreateInstance_AppxFactory := true
    SHCreateStreamOnFileEx := fun file =>
      if file = "C:\\Apps\\Calc_1.0\\AppxManifest.xml".toList then some ⟨1, "m".toList⟩
      else if file = "C:\\Apps\\Calc_1.scale-100.0\\Assets\\Logo".toList then
        some ⟨3, "PNG".toList⟩
      else none
    CreateManifestReader := fun _ => some ⟨some ⟨"Assets\\Logo".toList⟩⟩
    PathFileExistsW := fun _ => false }

/-- An instance with two subscriptions: identifier 1 with a callback that returns,
identifier 2 with a callback that raises. -/
def watchedEngine : ActiveWindow (Nat × List (WString × CString)) :=
  { sampleEngine with
    nextWatchId := 3
    watches := [(1, quietCallback), (2, raisingCallback)]
    watchThread := true }

/-- Four rounds of the message loop: a failed `GetMessage`; a `WM_PAINT` message
with the flag clear; a `WM_MOUSEMOVE` message with the flag set; a further
message that is never retrieved. -/
def sampleRounds : List Round :=
  [{ getMsgRet := -1, msg := ⟨0, 0, 0⟩, threadShouldExit := true },
   { getMsgRet := 1, msg := ⟨0x000F, 7, 8⟩, threadShouldExit := false },
   { getMsgRet := 1, msg := ⟨0x0200, 1, 2⟩, threadShouldExit := true },
   { getMsgRet := 1, msg := ⟨0x0113, 0, 0⟩, threadShouldExit := true }]

theorem find_last_of_eq_none (s chars : WString) (h : find_last_of s chars = none) :
    ∀ y ∈ s, y ∉ chars := by
  induction s with
  | nil => intro y hy; cases hy
  | cons c cs ih =>
    unfold find_last_of at h
    cases hcs : find_last_of cs chars with
    | some i => rw [hcs] at h; cases h
    | none =>
      rw [hcs] at h
      by_cases hc : c ∈ chars
      · simp [hc] at h
      · intro y hy
        rcases List.mem_cons.mp hy with rfl | hy
        · exact hc
        · exact ih hcs y hy

theorem find_last_of_eq_some (s chars : WString) (i : Nat) (h : find_last_of s chars = some i) :
    ∃ pre x suf, s = pre ++ x :: suf ∧ pre.length = i ∧ x ∈ chars ∧ ∀ y ∈ suf, y ∉ chars := by
  induction s generalizing i with
  | nil => cases h
  | cons c cs ih =>
    unfold find_last_of at h
    cases hcs : find_last_of cs chars with
    | some j =>
      rw [hcs] at h
      obtain ⟨pre, x, suf, hs, hlen, hx, hsuf⟩ := ih j hcs
      refine ⟨c :: pre, x, suf, by simp [hs], ?_, hx, hsuf⟩
      simp only [Option.some.injEq] at h
      simp [hlen, h]
    | none =>
      rw [hcs] at h
      by_cases hc : c ∈ chars
      · simp only [hc, if_true, Option.some.injEq] at h
        exact ⟨[], c, cs, rfl, by simp [← h], hc, find_last_of_eq_none cs chars hcs⟩
      · simp [hc] at h

theorem find_last_of_append (pre suf chars : WString) (x : Char) (hx : x ∈ chars)
    (hsuf : ∀ y ∈ suf, y ∉ chars) :
    find_last_of (pre ++ x :: suf) chars = some pre.length := by
  have hnone : find_last_of suf chars = none := by
    cases h : find_last_of suf chars with
    | none => rfl
    | some i =>
      obtain ⟨p, y, q, hs, _, hy, _⟩ := find_last_of_eq_some suf chars i h
      exact absurd hy (hsuf y (by simp [hs]))
  induction pre with
  | nil => simp [find_last_of, hnone, hx]
  | cons c cs ih => simp [find_last_of, ih]

theorem find_last_of_absent (s chars : WString) (h : ∀ y ∈ s, y ∉ chars) :
    find_last_of s chars = none := by
  cases hs : find_last_of s chars with
  | none => rfl
  | some i =>
    obtain ⟨p, y, q, hp, _, hy, _⟩ := find_last_of_eq_some s chars i hs
    exact absurd hy (h y (by simp [hp]))

/-! ## Application name -/

theorem basename_eq_suffix (pre suf : WString) (hsuf : '\\' ∉ suf) :
    basename (pre ++ '\\' :: suf) = suf := by
  have h : find_last_of (pre ++ '\\' :: suf) ['\\'] = some pre.length :=
    find_last_of_append pre suf ['\\'] '\\' (by decide)
      (fun y hy hmem => by
        have : y = '\\' := by simpa using hmem
        exact hsuf (this ▸ hy))
  simp [basename, substr, h]

theorem basename_eq_self (path : WString) (h : '\\' ∉ path) : basename path = path := by
  have hn : find_last_of path ['\\'] = none :=
    find_last_of_absent path ['\\'] (fun y hy hmem => by
      have : y = '\\' := by simpa using hmem
      exact h (this ▸ hy))
  simp [basename, hn]

theorem basename_no_backslash (path : WString) : '\\' ∉ basename path := by
  cases h : find_last_of path "\\".toList with
  | none =>
    have := find_last_of_eq_none path _ h
    simp only [basename, h]
    intro hmem
    exact this _ hmem (by decide)
  | some i =>
    obtain ⟨pre, x, suf, hs, hlen, _, hsuf⟩ := find_last_of_eq_some path _ i h
    have hd : path.drop (i + 1) = suf := by
      subst hs; subst hlen
      simp
    simp only [basename, h, substr, hd]
    intro hmem
    exact hsuf _ hmem (by decide)

/-- The outcomes of lines 90-108: the exception of the icon function, or the
record completed with application name, package identity and icon. -/
theorem describeWindow_cases {C : Type} (base64_encode : CString → CString)
    (api : IconCacheApi C) (P : Platform) (info : WindowInfo) (hProc : HANDLE)
    (iconCache : Option C) :
    (info.isUWPApp = true ∧
      (describeWindow base64_encode api P info hProc iconCache).cache =
        (getUWPIcon base64_encode api P hProc iconCache).cache ∧
      (describeWindow base64_encode api P info hProc iconCache).ops =
        (getUWPIcon base64_encode api P hProc iconCache).ops ∧
      ((∃ e, (getUWPIcon base64_encode api P hProc iconCache).val = .error e ∧
          (describeWindow base64_encode api P info hProc iconCache).val = .error e) ∨
        (∃ icon, (getUWPIcon base64_encode api P hProc iconCache).val = .ok icon ∧
          (describeWindow base64_encode api P info hProc iconCache).val =
            .ok (some { info with application := resolveApplication P info.path,
                                  uwpPackage := getUWPPackage P hProc, icon := icon })))) ∨
    (info.isUWPApp = false ∧
      (describeWindow base64_encode api P info hProc iconCache).cache =
        (getWindowIcon base64_encode api P info.path iconCache).cache ∧
      (describeWindow base64_encode api P info hProc iconCache).ops =
        (getWindowIcon base64_encode api P info.path iconCache).ops ∧
      ((∃ e, (getWindowIcon base64_encode api P info.path iconCache).val = .error e ∧
          (describeWindow base64_encode api P info hProc iconCache).val = .error e) ∨
        (∃ icon, (getWindowIcon base64_encode api P info.path iconCache).val = .ok icon ∧
          (describeWindow base64_encode api P info hProc iconCache).val =
            .ok (some { info with application := resolveApplication P info.path,
                                  icon := icon })))) := by
  unfold describeWindow
  cases hflag : info.isUWPApp with
  | true =>
    left
    simp only [if_true]
    refine ⟨trivial, ?_⟩
    split
    · next e he => exact ⟨rfl, rfl, Or.inl ⟨e, he, rfl⟩⟩
    · next icon hi => exact ⟨rfl, rfl, Or.inr ⟨icon, hi, rfl⟩⟩
  | false =>
    right
    simp only [Bool.false_eq_true, if_false]
    refine ⟨trivial, ?_⟩
    split
    · next e he => exact ⟨rfl, rfl, Or.inl ⟨e, he, rfl⟩⟩
    · next icon hi => exact ⟨rfl, rfl, Or.inr ⟨icon, hi, rfl⟩⟩

theorem describeWindow_application {C : Type} (base64_encode : CString → CString)
    (api : IconCacheApi C) (P : Platform) (info0 : WindowInfo) (hProc : HANDLE)
    (iconCache : Option C) (info : WindowInfo)
    (hret : (describeWindow base64_encode api P info0 hProc iconCache).val = .ok (some info)) :
    info.application = resolveApplication P info.path ∧ info.path = info0.path ∧
      info.isUWPApp = info0.isUWPApp := by
  rcases describeWindow_cases base64_encode api P info0 hProc iconCache with
    ⟨_, _, _, h⟩ | ⟨_, _, _, h⟩
  all_goals
    rcases h with ⟨e, _, he⟩ | ⟨icon, _, hi⟩
    · rw [he] at hret
      cases hret
    · rw [hi] at hret
      simp only [Except.ok.injEq, Option.some.injEq] at hret
      subst hret
      exact ⟨rfl, rfl, rfl⟩

theorem getActiveWindow_application {C : Type} (base64_encode : CString → CString)
    (api : IconCacheApi C) (P : Platform) (iconCache : Option C) (info : WindowInfo)
    (hret : (getActiveWindow base64_encode api P iconCache).val = .ok (some info)) :
    info.application = resolveApplication P info.path := by
  unfold getActiveWindow at hret
  simp only at hret
  split_ifs at hret
  all_goals first
    | (simp only [Except.ok.injEq] at hret; cases hret)
    | exact (describeWindow_application base64_encode api P _ _ iconCache info hret).1

/-- C5: when `getActiveWindow` returns a record for whose resolved path
`getProcessName` yields no name, the record's `application` is `basename(path)`:
the part of the path after its last backslash (extension kept), the whole path
when it has no backslash; it never contains a backslash, and for the path
`C:\apps\tool.exe` it is `tool.exe`. -/
theorem application_falls_back_to_basename {C : Type} (base64_encode : CString → CString)
    (api : IconCacheApi C) (P : Platform) (iconCache : Option C) (info : WindowInfo)
    (hret : (getActiveWindow base64_encode api P iconCache).val = .ok (some info))
    (hname : getProcessName P info.path = []) :
    info.application = basename info.path ∧
    (∀ pre suf, info.path = pre ++ '\\' :: suf → '\\' ∉ suf → info.application = suf) ∧
    ('\\' ∉ info.path → info.application = info.path) ∧
    '\\' ∉ info.application ∧
    (info.path = "C:\\apps\\tool.exe".toList → info.application = "tool.exe".toList) := by
  have happ : info.application = basename info.path := by
    rw [getActiveWindow_application base64_encode api P iconCache info hret]
    simp [resolveApplication, hname]
  refine ⟨happ, ?_, ?_, ?_, ?_⟩
  · intro pre suf hp hsuf
    rw [happ, hp]
    exact basename_eq_suffix pre suf hsuf
  · intro h
    rw [happ]
    exact basename_eq_self _ h
  · rw [happ]
    exact basename_no_backslash _
  · intro hp
    rw [happ, hp]
    decide

/-- C5 at a concrete input: the foreground process runs `C:\apps\tool.exe`, which
has no version resource; the record's application is `tool.exe`. -/
theorem application_falls_back_to_basename_witness :
    (getActiveWindow stubEncode listCache toolPlatform none).val = .ok (some toolRecord) ∧
    getProcessName toolPlatform toolRecord.path = [] ∧
    toolRecord.application = "tool.exe".toList :=
  ⟨rfl, rfl,
    (application_falls_back_to_basename stubEncode listCache toolPlatform none toolRecord
      rfl rfl).2.2.2.2 rfl⟩

/-! ## Subscription identifiers -/

theorem watchActiveWindow_id {C : Type} (watchBits : Nat) (aw : ActiveWindow C)
    (cb : watch_callback) : (watchActiveWindow watchBits aw cb).1 = aw.nextWatchId := rfl

theorem watchActiveWindow_nextWatchId {C : Type} (watchBits : Nat) (aw : ActiveWindow C)
    (cb : watch_callback) :
    (watchActiveWindow watchBits aw cb).2.nextWatchId = (aw.nextWatchId + 1) % 2 ^ watchBits := by
  unfold watchActiveWindow
  simp only
  split_ifs <;> rfl

theorem unwatchActiveWindow_nextWatchId {C : Type} (aw : ActiveWindow C) (id : Nat) :
    (unwatchActiveWindow aw id).nextWatchId = aw.nextWatchId := rfl

theorem runWatchOps_no_watch {C : Type} (watchBits : Nat) (ops : List WatchOp) :
    ∀ aw : ActiveWindow C, watchCount ops = 0 → (runWatchOps watchBits ops aw).1 = [] := by
  induction ops with
  | nil => intro aw _; rfl
  | cons op rest ih =>
    intro aw h0
    cases op with
    | watch _ => simp [watchCount] at h0
    | unwatch id =>
      simp only [watchCount] at h0
      simp only [runWatchOps]
      exact ih _ h0

theorem runWatchOps_ids {C : Type} (watchBits : Nat) (ops : List WatchOp) :
    ∀ aw : ActiveWindow C,
      (watchCount ops = 0 ∨ aw.nextWatchId + watchCount ops ≤ 2 ^ watchBits) →
      (∀ id ∈ (runWatchOps watchBits ops aw).1, aw.nextWatchId ≤ id) ∧
        (runWatchOps watchBits ops aw).1.Pairwise (fun a b => a < b) := by
  induction ops with
  | nil => intro aw _; simp [runWatchOps]
  | cons op rest ih =>
    intro aw h
    cases op with
    | unwatch id =>
      have := ih (unwatchActiveWindow aw id) (by simpa [watchCount, unwatchActiveWindow_nextWatchId] using h)
      simpa [runWatchOps, unwatchActiveWindow_nextWatchId] using this
    | watch cb =>
      have hle : aw.nextWatchId + (watchCount rest + 1) ≤ 2 ^ watchBits := by
        rcases h with h | h
        · simp [watchCount] at h
        · simpa [watchCount] using h
      have hlt : aw.nextWatchId + 1 ≤ 2 ^ watchBits := by omega
      have hrest : watchCount rest = 0 ∨
          (watchActiveWindow watchBits aw cb).2.nextWatchId + watchCount rest ≤ 2 ^ watchBits := by
        by_cases h0 : watchCount rest = 0
        · exact Or.inl h0
        · right
          rw [watchActiveWindow_nextWatchId, Nat.mod_eq_of_lt (by omega)]
          omega
      obtain ⟨hge, hpw⟩ := ih (watchActiveWindow watchBits aw cb).2 hrest
      have hids : ∀ id ∈ (runWatchOps watchBits rest (watchActiveWindow watchBits aw cb).2).1,
          aw.nextWatchId < id := by
        intro id hid
        have hne : watchCount rest ≠ 0 := by
          intro h0
          have := runWatchOps_no_watch watchBits rest (watchActiveWindow watchBits aw cb).2 h0
          rw [this] at hid
          cases hid
        have := hge id hid
        rw [watchActiveWindow_nextWatchId, Nat.mod_eq_of_lt (by omega)] at this
        omega
      refine ⟨?_, ?_⟩
      · intro id hid
        simp only [runWatchOps, List.mem_cons, watchActiveWindow_id] at hid
        rcases hid with rfl | hid
        · exact Nat.le_refl _
        · exact Nat.le_of_lt (hids id hid)
      · simp only [runWatchOps, watchActiveWindow_id]
        exact List.pairwise_cons.mpr ⟨hids, hpw⟩

/-- C1: for every sequence of `watchActiveWindow` and `unwatchActiveWindow` calls on
one instance during which the counter does not wrap, every identifier returned
is strictly greater than every identifier returned earlier, so no identifier
is returned twice, whatever was unsubscribed in between. -/
theorem watch_ids_strictly_increasing {C : Type} (watchBits : Nat) (ops : List WatchOp)
    (aw : ActiveWindow C)
    (hnowrap : aw.nextWatchId + watchCount ops ≤ 2 ^ watchBits) :
    (runWatchOps watchBits ops aw).1.Pairwise (fun earlier later => earlier < later) ∧
    (runWatchOps watchBits ops aw).1.Nodup := by
  have h := (runWatchOps_ids watchBits ops aw (Or.inr hnowrap)).2
  exact ⟨h, h.imp (fun hlt => Nat.ne_of_lt hlt)⟩

/-- C1 at a concrete input: subscribe, unsubscribe that identifier, subscribe
again, on an instance whose counter stands at 5 with a 32-bit `watch_t`. -/
theorem watch_ids_strictly_increasing_witness :
    (ActiveWindow.declared Unit 5).nextWatchId + watchCount sampleWatchOps ≤ 2 ^ 32 ∧
    (runWatchOps 32 sampleWatchOps (ActiveWindow.declared Unit 5)).1 = [5, 6] ∧
    [5, 6].Pairwise (fun earlier later => earlier < later) :=
  ⟨by decide, rfl,
    (watch_ids_strictly_increasing 32 sampleWatchOps (ActiveWindow.declared Unit 5)
      (by decide)).1⟩

/-! ## Icon strings -/

theorem lookup_take {β : Type} (k : WString) (l : List (WString × β)) (n : Nat) (x : β)
    (h : (l.take n).lookup k = some x) : l.lookup k = some x := by
  induction l generalizing n with
  | nil => simp at h
  | cons e rest ih =>
    cases n with
    | zero => simp at h
    | succ m =>
      obtain ⟨a, b⟩ := e
      simp only [List.take_succ_cons, List.lookup_cons] at h ⊢
      split at h
      · exact h
      · exact ih m h

theorem lookup_filter_ne {β : Type} (k k0 : WString) (l : List (WString × β)) (hne : k0 ≠ k) :
    (l.filter (fun e => !(e.1 == k))).lookup k0 = l.lookup k0 := by
  induction l with
  | nil => rfl
  | cons e rest ih =>
    obtain ⟨a, b⟩ := e
    by_cases hak : a = k
    · subst hak
      have : (k0 == a) = false := by simpa using hne
      simp [List.filter_cons, List.lookup_cons, this, ih]
    · have hf : (!(a == k)) = true := by simpa using hak
      simp only [List.filter_cons, hf, if_true, List.lookup_cons, ih]

theorem listCache_returnsStored : listCache.ReturnsStored where
  fresh := by intro n k; rfl
  stored := by
    intro c k v k0 hhas
    simp only [listCache] at hhas ⊢
    cases hl : (List.take c.1 ((k, v) :: List.filter (fun e => !(e.1 == k)) c.2)).lookup k0 with
    | none => simp [hl] at hhas
    | some x =>
      have hfull := lookup_take _ _ _ _ hl
      by_cases hk : k0 = k
      · subst hk
        left
        simp only [List.lookup_cons, beq_self_eq_true, Option.some.injEq] at hfull
        simp [hfull]
      · right
        have hb : (k0 == k) = false := by simpa using hk
        simp only [List.lookup_cons, hb] at hfull
        rw [lookup_filter_ne k k0 c.2 hk] at hfull
        simp [hfull]

theorem wellFormedIcon_nil (base64_encode : CString → CString) :
    WellFormedIcon base64_encode [] := Or.inl rfl

theorem encodeImageStream_cases (base64_encode : CString → CString) (pngStream : IStream) :
    encodeImageStream base64_encode pngStream = [] ∨
      ∃ bytes, encodeImageStream base64_encode pngStream = base64_encode bytes := by
  unfold encodeImageStream
  simp only
  split_ifs
  · exact Or.inl rfl
  · exact Or.inr ⟨_, rfl⟩

theorem wellFormedIcon_encoded (base64_encode : CString → CString) (pngStream : IStream)
    (h : encodeImageStream base64_encode pngStream ≠ []) :
    WellFormedIcon base64_encode (dataUriHead ++ encodeImageStream base64_encode pngStream) := by
  rcases encodeImageStream_cases base64_encode pngStream with h0 | ⟨bytes, hb⟩
  · exact absurd h0 h
  · exact Or.inr ⟨bytes, hb ▸ h, by rw [hb]⟩

theorem cacheGet_wellFormed {C : Type} (base64_encode : CString → CString)
    (api : IconCacheApi C) (iconCache : Option C) (key : WString)
    (hc : CacheWellFormed base64_encode api iconCache)
    (hit : cacheHit api iconCache key = true) :
    WellFormedIcon base64_encode (cacheGet api iconCache key) := by
  cases iconCache with
  | none => simp [cacheHit] at hit
  | some c => exact hc c rfl key hit

theorem cacheStore_wellFormed {C : Type} (base64_encode : CString → CString)
    (api : IconCacheApi C) (hapi : api.ReturnsStored) (iconCache : Option C) (key : WString)
    (icon : CString) (hc : CacheWellFormed base64_encode api iconCache)
    (hicon : WellFormedIcon base64_encode icon) :
    CacheWellFormed base64_encode api (cacheStore api iconCache key icon).1 := by
  cases iconCache with
  | none => intro c h; simp [cacheStore] at h
  | some c0 =>
    intro c h k hk
    simp only [cacheStore, Option.some.injEq] at h
    subst h
    rcases hapi.stored c0 key icon k hk with hv | ⟨hold, hv⟩
    · rw [hv]; exact hicon
    · rw [hv]; exact hc c0 rfl k hold

/-- The outcomes of `getWindowIcon`: a cache hit, a failure (empty string, cache
untouched), or a freshly encoded icon that is stored. -/
theorem getWindowIcon_cases {C : Type} (base64_encode : CString → CString)
    (api : IconCacheApi C) (P : Platform) (path : WString) (iconCache : Option C) :
    (cacheHit api iconCache path = true ∧
      getWindowIcon base64_encode api P path iconCache =
        ⟨.ok (cacheGet api iconCache path), iconCache,
          cacheHitOps iconCache path ++ [CacheOp.get path]⟩) ∨
    (cacheHit api iconCache path = false ∧
      getWindowIcon base64_encode api P path iconCache =
        ⟨.ok [], iconCache, cacheHitOps iconCache path⟩) ∨
    (cacheHit api iconCache path = false ∧
      ∃ pngStream, encodeImageStream base64_encode pngStream ≠ [] ∧
        getWindowIcon base64_encode api P path iconCache =
          ⟨.ok (dataUriHead ++ encodeImageStream base64_encode pngStream),
            (cacheStore api iconCache path
              (dataUriHead ++ encodeImageStream base64_encode pngStream)).1,
            cacheHitOps iconCache path ++
              (cacheStore api iconCache path
                (dataUriHead ++ encodeImageStream base64_encode pngStream)).2⟩) := by
  unfold getWindowIcon
  by_cases hit : cacheHit api iconCache path = true
  · left
    exact ⟨hit, by simp [hit]⟩
  · right
    have hmiss : cacheHit api iconCache path = false := by simpa using hit
    simp only [hmiss, Bool.false_eq_true, if_false]
    split_ifs with hnull
    · exact Or.inl ⟨trivial, rfl⟩
    · split
      · exact Or.inl ⟨trivial, rfl⟩
      · next pngStream _ =>
        split_ifs with hempty
        · exact Or.inl ⟨trivial, rfl⟩
        · exact Or.inr ⟨trivial, pngStream, hempty, rfl⟩

/-- The outcomes of `getUWPIcon`: no package path (empty string, no cache call),
a cache hit, a failure (empty string, cache untouched), an exception from the
logo-path rewrite (cache untouched), or a freshly encoded icon that is stored. -/
theorem getUWPIcon_cases {C : Type} (base64_encode : CString → CString)
    (api : IconCacheApi C) (P : Platform) (hProc : HANDLE) (iconCache : Option C) :
    (getUWPPackagePath P hProc = [] ∧
      getUWPIcon base64_encode api P hProc iconCache = ⟨.ok [], iconCache, []⟩) ∨
    (cacheHit api iconCache (getUWPPackagePath P hProc) = true ∧
      getUWPIcon base64_encode api P hProc iconCache =
        ⟨.ok (cacheGet api iconCache (getUWPPackagePath P hProc)), iconCache,
          cacheHitOps iconCache (getUWPPackagePath P hProc)
            ++ [CacheOp.get (getUWPPackagePath P hProc)]⟩) ∨
    (cacheHit api iconCache (getUWPPackagePath P hProc) = false ∧
      getUWPIcon base64_encode api P hProc iconCache =
        ⟨.ok [], iconCache, cacheHitOps iconCache (getUWPPackagePath P hProc)⟩) ∨
    (cacheHit api iconCache (getUWPPackagePath P hProc) = false ∧
      ∃ e properties,
        getUWPPackageProperties P (getUWPPackagePath P hProc) = some properties ∧
        uwpLogoPath P (getUWPPackagePath P hProc) properties.Logo = .error e ∧
        getUWPIcon base64_encode api P hProc iconCache =
          ⟨.error e, iconCache, cacheHitOps iconCache (getUWPPackagePath P hProc)⟩) ∨
    (cacheHit api iconCache (getUWPPackagePath P hProc) = false ∧
      ∃ pngStream, encodeImageStream base64_encode pngStream ≠ [] ∧
        getUWPIcon base64_encode api P hProc iconCache =
          ⟨.ok (dataUriHead ++ encodeImageStream base64_encode pngStream),
            (cacheStore api iconCache (getUWPPackagePath P hProc)
              (dataUriHead ++ encodeImageStream base64_encode pngStream)).1,
            cacheHitOps iconCache (getUWPPackagePath P hProc) ++
              (cacheStore api iconCache (getUWPPackagePath P hProc)
                (dataUriHead ++ encodeImageStream base64_encode pngStream)).2⟩) := by
  unfold getUWPIcon
  by_cases hpkg : getUWPPackagePath P hProc = []
  · left
    exact ⟨hpkg, by simp [hpkg]⟩
  · right
    by_cases hit : cacheHit api iconCache (getUWPPackagePath P hProc) = true
    · left
      exact ⟨hit, by simp [hpkg, hit]⟩
    · right
      have hmiss : cacheHit api iconCache (getUWPPackagePath P hProc) = false := by
        simpa using hit
      simp only [hpkg, hmiss, Bool.false_eq_true, if_false]
      split
      · exact Or.inl ⟨trivial, rfl⟩
      · next properties hprops =>
        split
        · next e he => exact Or.inr (Or.inl ⟨trivial, e, properties, hprops, he, rfl⟩)
        · split
          · exact Or.inl ⟨trivial, rfl⟩
          · next pngStream _ =>
            split_ifs with hempty
            · exact Or.inl ⟨trivial, rfl⟩
            · exact Or.inr (Or.inr ⟨trivial, pngStream, hempty, rfl⟩)

/-- Function `getActiveWindow` returns null without touching the cache, or ends in lines
90-108 on some partially filled record and process handle. -/
theorem getActiveWindow_eq {C : Type} (base64_encode : CString → CString)
    (api : IconCacheApi C) (P : Platform) (iconCache : Option C) :
    getActiveWindow base64_encode api P iconCache = ⟨.ok none, iconCache, []⟩ ∨
    ∃ info0 hProc, getActiveWindow base64_encode api P iconCache =
      describeWindow base64_encode api P info0 hProc iconCache := by
  unfold getActiveWindow
  simp only
  split_ifs
  · exact Or.inl rfl
  · exact Or.inl rfl
  · exact Or.inl rfl
  · exact Or.inr ⟨_, _, rfl⟩
  · exact Or.inr ⟨_, _, rfl⟩

/-- The outcomes of `getActiveWindow` with respect to the icon step: the null
record without any cache call, or the cache effects of `getWindowIcon` /
`getUWPIcon` together with that function's exception or a record carrying its
icon. -/
theorem getActiveWindow_cases {C : Type} (base64_encode : CString → CString)
    (api : IconCacheApi C) (P : Platform) (iconCache : Option C) :
    getActiveWindow base64_encode api P iconCache = ⟨.ok none, iconCache, []⟩ ∨
    (∃ path,
      (getActiveWindow base64_encode api P iconCache).cache =
        (getWindowIcon base64_encode api P path iconCache).cache ∧
      (getActiveWindow base64_encode api P iconCache).ops =
        (getWindowIcon base64_encode api P path iconCache).ops ∧
      ((∃ e, (getWindowIcon base64_encode api P path iconCache).val = .error e ∧
          (getActiveWindow base64_encode api P iconCache).val = .error e) ∨
        (∃ info, (getWindowIcon base64_encode api P path iconCache).val = .ok info.icon ∧
          (getActiveWindow base64_encode api P iconCache).val = .ok (some info) ∧
          info.isUWPApp = false ∧ info.path = path))) ∨
    (∃ hProc,
      (getActiveWindow base64_encode api P iconCache).cache =
        (getUWPIcon base64_encode api P hProc iconCache).cache ∧
      (getActiveWindow base64_encode api P iconCache).ops =
        (getUWPIcon base64_encode api P hProc iconCache).ops ∧
      ((∃ e, (getUWPIcon base64_encode api P hProc iconCache).val = .error e ∧
          (getActiveWindow base64_encode api P iconCache).val = .error e) ∨
        (∃ info, (getUWPIcon base64_encode api P hProc iconCache).val = .ok info.icon ∧
          (getActiveWindow base64_encode api P iconCache).val = .ok (some info) ∧
          info.isUWPApp = true))) := by
  rcases getActiveWindow_eq base64_encode api P iconCache with h | ⟨info0, hProc, h⟩
  · exact Or.inl h
  · right
    rw [h]
    rcases describeWindow_cases base64_encode api P info0 hProc iconCache with
      ⟨_, hc, ho, hv⟩ | ⟨_, hc, ho, hv⟩
    · right
      refine ⟨hProc, hc, ho, ?_⟩
      rcases hv with ⟨e, he, hr⟩ | ⟨icon, hi, hr⟩
      · exact Or.inl ⟨e, he, hr⟩
      · exact Or.inr ⟨_, hi, hr, (by assumption)⟩
    · left
      refine ⟨info0.path, hc, ho, ?_⟩
      rcases hv with ⟨e, he, hr⟩ | ⟨icon, hi, hr⟩
      · exact Or.inl ⟨e, he, hr⟩
      · exact Or.inr ⟨_, hi, hr, (by assumption), rfl⟩

theorem getWindowIcon_wellFormed {C : Type} (base64_encode : CString → CString)
    (api : IconCacheApi C) (hapi : api.ReturnsStored) (P : Platform) (path : WString)
    (iconCache : Option C) (hc : CacheWellFormed base64_encode api iconCache) :
    (∃ icon, (getWindowIcon base64_encode api P path iconCache).val = .ok icon ∧
      WellFormedIcon base64_encode icon) ∧
    CacheWellFormed base64_encode api (getWindowIcon base64_encode api P path iconCache).cache := by
  rcases getWindowIcon_cases base64_encode api P path iconCache with
    ⟨hit, h⟩ | ⟨_, h⟩ | ⟨_, pngStream, hne, h⟩
  · rw [h]
    exact ⟨⟨_, rfl, cacheGet_wellFormed base64_encode api iconCache path hc hit⟩, hc⟩
  · rw [h]
    exact ⟨⟨_, rfl, wellFormedIcon_nil base64_encode⟩, hc⟩
  · rw [h]
    exact ⟨⟨_, rfl, wellFormedIcon_encoded base64_encode pngStream hne⟩,
      cacheStore_wellFormed base64_encode api hapi iconCache path _ hc
        (wellFormedIcon_encoded base64_encode pngStream hne)⟩

theorem getUWPIcon_wellFormed {C : Type} (base64_encode : CString → CString)
    (api : IconCacheApi C) (hapi : api.ReturnsStored) (P : Platform) (hProc : HANDLE)
    (iconCache : Option C) (hc : CacheWellFormed base64_encode api iconCache) :
    (∀ icon, (getUWPIcon base64_encode api P hProc iconCache).val = .ok icon →
      WellFormedIcon base64_encode icon) ∧
    CacheWellFormed base64_encode api (getUWPIcon base64_encode api P hProc iconCache).cache := by
  rcases getUWPIcon_cases base64_encode api P hProc iconCache with
    ⟨_, h⟩ | ⟨hit, h⟩ | ⟨_, h⟩ | ⟨_, e, _, _, _, h⟩ | ⟨_, pngStream, hne, h⟩
  · rw [h]
    refine ⟨fun icon hi => ?_, hc⟩
    simp only [Except.ok.injEq] at hi
    exact hi ▸ wellFormedIcon_nil base64_encode
  · rw [h]
    refine ⟨fun icon hi => ?_, hc⟩
    simp only [Except.ok.injEq] at hi
    exact hi ▸ cacheGet_wellFormed base64_encode api iconCache _ hc hit
  · rw [h]
    refine ⟨fun icon hi => ?_, hc⟩
    simp only [Except.ok.injEq] at hi
    exact hi ▸ wellFormedIcon_nil base64_encode
  · rw [h]
    exact ⟨fun icon hi => (by cases hi), hc⟩
  · rw [h]
    refine ⟨fun icon hi => ?_, cacheStore_wellFormed base64_encode api hapi iconCache _ _ hc
        (wellFormedIcon_encoded base64_encode pngStream hne)⟩
    simp only [Except.ok.injEq] at hi
    exact hi ▸ wellFormedIcon_encoded base64_encode pngStream hne

theorem getActiveWindow_wellFormed {C : Type} (base64_encode : CString → CString)
    (api : IconCacheApi C) (hapi : api.ReturnsStored) (P : Platform)
    (iconCache : Option C) (hc : CacheWellFormed base64_encode api iconCache) :
    (∀ info, (getActiveWindow base64_encode api P iconCache).val = .ok (some info) →
      WellFormedIcon base64_encode info.icon) ∧
    CacheWellFormed base64_encode api (getActiveWindow base64_encode api P iconCache).cache := by
  rcases getActiveWindow_cases base64_encode api P iconCache with
    h | ⟨path, hcache, _, hval⟩ | ⟨hProc, hcache, _, hval⟩
  · rw [h]
    exact ⟨fun info hi => (by cases hi), hc⟩
  · have hw := getWindowIcon_wellFormed base64_encode api hapi P path iconCache hc
    refine ⟨fun info hi => ?_, hcache ▸ hw.2⟩
    rcases hval with ⟨e, _, he⟩ | ⟨info0, hicon, hinfo, _⟩
    · rw [he] at hi; cases hi
    · rw [hinfo] at hi
      simp only [Except.ok.injEq, Option.some.injEq] at hi
      subst hi
      obtain ⟨icon, hok, hwf⟩ := hw.1
      rw [hicon] at hok
      simp only [Except.ok.injEq] at hok
      exact hok ▸ hwf
  · have hw := getUWPIcon_wellFormed base64_encode api hapi P hProc iconCache hc
    refine ⟨fun info hi => ?_, hcache ▸ hw.2⟩
    rcases hval with ⟨e, _, he⟩ | ⟨info0, hicon, hinfo, _⟩
    · rw [he] at hi; cases hi
    · rw [hinfo] at hi
      simp only [Except.ok.injEq, Option.some.injEq] at hi
      subst hi
      exact hw.1 _ hicon

theorem runIconCalls_wellFormed {C : Type} (base64_encode : CString → CString)
    (api : IconCacheApi C) (hapi : api.ReturnsStored) (calls : List IconCall) :
    ∀ iconCache : Option C, CacheWellFormed base64_encode api iconCache →
      ∀ icon ∈ runIconCalls base64_encode api calls iconCache,
        WellFormedIcon base64_encode icon := by
  induction calls with
  | nil => intro _ _ icon h; cases h
  | cons call rest ih =>
    intro iconCache hc icon hmem
    simp only [runIconCalls, List.mem_append] at hmem
    have key : (∀ i ∈ (call.run base64_encode api iconCache).1, WellFormedIcon base64_encode i) ∧
        CacheWellFormed base64_encode api (call.run base64_encode api iconCache).2 := by
      cases call with
      | getWindowIcon P path =>
        obtain ⟨⟨i0, hok, hwf⟩, hcache⟩ :=
          getWindowIcon_wellFormed base64_encode api hapi P path iconCache hc
        simp only [IconCall.run, hok]
        exact ⟨fun i hi => by simp only [List.mem_singleton] at hi; exact hi ▸ hwf, hcache⟩
      | getUWPIcon P hProc =>
        obtain ⟨hwf, hcache⟩ := getUWPIcon_wellFormed base64_encode api hapi P hProc iconCache hc
        simp only [IconCall.run]
        split
        · next i0 hok =>
          exact ⟨fun i hi => by simp only [List.mem_singleton] at hi; exact hi ▸ hwf i0 hok, hcache⟩
        · exact ⟨fun i hi => (by cases hi), hcache⟩
      | getActiveWindow P =>
        obtain ⟨hwf, hcache⟩ := getActiveWindow_wellFormed base64_encode api hapi P iconCache hc
        simp only [IconCall.run]
        split
        · next info hok =>
          exact ⟨fun i hi => by simp only [List.mem_singleton] at hi; exact hi ▸ hwf info hok,
            hcache⟩
        · exact ⟨fun i hi => (by cases hi), hcache⟩
    rcases hmem with hmem | hmem
    · exact key.1 icon hmem
    · exact ih _ key.2 icon hmem

theorem construct_cacheWellFormed {C : Type} (base64_encode : CString → CString)
    (api : IconCacheApi C) (hapi : api.ReturnsStored) (encoderClsId : Int)
    (iconCacheSize firstWatchId : Nat) (aw : ActiveWindow C)
    (hctor : ActiveWindow.construct api encoderClsId iconCacheSize firstWatchId = .ok aw) :
    CacheWellFormed base64_encode api aw.iconCache := by
  unfold ActiveWindow.construct at hctor
  split_ifs at hctor
  · simp only [Except.ok.injEq] at hctor
    subst hctor
    intro c hcache k hk
    simp only [Option.some.injEq] at hcache
    subst hcache
    rw [hapi.fresh] at hk
    cases hk
  · simp only [Except.ok.injEq] at hctor
    subst hctor
    intro c hcache
    cases hcache

theorem find_last_of_lt (s chars : WString) (i : Nat) (h : find_last_of s chars = some i) :
    i < s.length := by
  obtain ⟨pre, x, suf, hs, hlen, _, _⟩ := find_last_of_eq_some s chars i h
  subst hs
  simp only [List.length_append, List.length_cons]
  omega

/-- The logo-path rewrite throws only `std::out_of_range`, and only when the
literal file does not exist and the path holds no dot at all. -/
theorem uwpLogoPath_error (P : Platform) (pkgPath logo : WString) (e : Exn)
    (h : uwpLogoPath P pkgPath logo = .error e) :
    e = Exn.out_of_range ∧ P.PathFileExistsW (pkgPath ++ "\\".toList ++ logo) = false ∧
      '.' ∉ pkgPath ++ "\\".toList ++ logo := by
  unfold uwpLogoPath at h
  simp only at h
  cases hex : P.PathFileExistsW (pkgPath ++ "\\".toList ++ logo) with
  | true =>
    rw [hex] at h
    simp only [Bool.not_true, Bool.false_eq_true, if_false] at h
    cases h
  | false =>
    rw [hex] at h
    simp only [Bool.not_false, if_true] at h
    cases hpos : find_last_of (pkgPath ++ "\\".toList ++ logo) ".".toList with
    | none =>
      rw [hpos] at h
      simp only [wstring_insert, Except.error.injEq] at h
      refine ⟨h.symm, rfl, ?_⟩
      intro hmem
      exact find_last_of_eq_none _ _ hpos '.' hmem (by decide)
    | some i =>
      rw [hpos] at h
      have hlt := find_last_of_lt _ _ i hpos
      simp only [wstring_insert, if_pos (Nat.le_of_lt hlt)] at h
      cases h

/-- An exception leaves `getUWPIcon` only as the `std::out_of_range` of the
logo-path rewrite. -/
theorem getUWPIcon_error {C : Type} (base64_encode : CString → CString)
    (api : IconCacheApi C) (P : Platform) (hProc : HANDLE) (iconCache : Option C) (e : Exn)
    (h : (getUWPIcon base64_encode api P hProc iconCache).val = .error e) :
    e = Exn.out_of_range ∧
      ∃ properties, getUWPPackageProperties P (getUWPPackagePath P hProc) = some properties ∧
        P.PathFileExistsW (getUWPPackagePath P hProc ++ "\\".toList ++ properties.Logo) = false ∧
        '.' ∉ getUWPPackagePath P hProc ++ "\\".toList ++ properties.Logo := by
  rcases getUWPIcon_cases base64_encode api P hProc iconCache with
    ⟨_, hr⟩ | ⟨_, hr⟩ | ⟨_, hr⟩ | ⟨_, e0, properties, hprops, hlogo, hr⟩ | ⟨_, _, _, hr⟩
  · rw [hr] at h; cases h
  · rw [hr] at h; cases h
  · rw [hr] at h; cases h
  · rw [hr] at h
    simp only [Except.error.injEq] at h
    subst h
    obtain ⟨he, hmiss, hdot⟩ := uwpLogoPath_error P _ _ e0 hlogo
    exact ⟨he, properties, hprops, hmiss, hdot⟩
  · rw [hr] at h; cases h

/-- C2: on an instance whose icon cache only returns values previously stored in
it (it starts out fresh from the constructor and is written by these functions
alone), every string returned by `getWindowIcon` and `getUWPIcon`, and the icon
of every record returned by `getActiveWindow`, in any sequence of such calls
against any platform outcomes, is empty or the literal `data:image/png;base64,`
followed by a non-empty output of the base64 encoder.  `getWindowIcon` always
returns such a string; `getUWPIcon` returns one unless the logo-path rewrite
throws `std::out_of_range`, which happens only when the literal logo file does
not exist and its path holds no dot. -/
theorem icons_are_data_uris {C : Type} (base64_encode : CString → CString)
    (api : IconCacheApi C) (hapi : api.ReturnsStored) (encoderClsId : Int)
    (iconCacheSize firstWatchId : Nat) (aw : ActiveWindow C)
    (hctor : ActiveWindow.construct api encoderClsId iconCacheSize firstWatchId = .ok aw)
    (calls : List IconCall) :
    (∀ icon ∈ runIconCalls base64_encode api calls aw.iconCache,
      icon = [] ∨ ∃ bytes, base64_encode bytes ≠ [] ∧
        icon = "data:image/png;base64,".toList ++ base64_encode bytes) ∧
    (∀ (P : Platform) (path : WString) (iconCache : Option C),
      ∃ icon, (getWindowIcon base64_encode api P path iconCache).val = .ok icon) ∧
    (∀ (P : Platform) (hProc : HANDLE) (iconCache : Option C),
      (∃ icon, (getUWPIcon base64_encode api P hProc iconCache).val = .ok icon) ∨
      ((getUWPIcon base64_encode api P hProc iconCache).val = .error Exn.out_of_range ∧
        ∃ properties,
          getUWPPackageProperties P (getUWPPackagePath P hProc) = some properties ∧
          P.PathFileExistsW (getUWPPackagePath P hProc ++ "\\".toList ++ properties.Logo)
            = false ∧
          '.' ∉ getUWPPackagePath P hProc ++ "\\".toList ++ properties.Logo)) := by
  refine ⟨?_, ?_, ?_⟩
  · exact runIconCalls_wellFormed base64_encode api hapi calls aw.iconCache
      (construct_cacheWellFormed base64_encode api hapi encoderClsId iconCacheSize firstWatchId
        aw hctor)
  · intro P path iconCache
    rcases getWindowIcon_cases base64_encode api P path iconCache with
      ⟨_, h⟩ | ⟨_, h⟩ | ⟨_, _, _, h⟩ <;> exact ⟨_, by rw [h]⟩
  · intro P hProc iconCache
    cases hv : (getUWPIcon base64_encode api P hProc iconCache).val with
    | ok icon => exact Or.inl ⟨icon, rfl⟩
    | error e =>
      obtain ⟨he, hprops⟩ := getUWPIcon_error base64_encode api P hProc iconCache e hv
      exact Or.inr ⟨by rw [he], hprops⟩

/-- C2 at a concrete input: the icon rendered by the first call and the icon
served from the cache by the second call are the same data URI. -/
theorem icons_are_data_uris_witness :
    ActiveWindow.construct listCache 0 4 1 = .ok sampleEngine ∧
    runIconCalls stubEncode listCache sampleIconCalls sampleEngine.iconCache =
      ["data:image/png;base64,AAA".toList, "data:image/png;base64,AAA".toList] ∧
    ("data:image/png;base64,AAA".toList = [] ∨ ∃ bytes, stubEncode bytes ≠ [] ∧
      "data:image/png;base64,AAA".toList = "data:image/png;base64,".toList ++ stubEncode bytes) :=
  ⟨rfl, rfl,
    (icons_are_data_uris stubEncode listCache listCache_returnsStored 0 4 1 sampleEngine rfl
      sampleIconCalls).1 "data:image/png;base64,AAA".toList
      (List.mem_cons_self _ _)⟩

/-! ## Cache writes -/

/-- The cache calls of a lookup hit or of a failure contain no `set`. -/
theorem cacheHitOps_no_set {C : Type} (iconCache : Option C) (key : WString) (extra : List CacheOp)
    (hextra : ∀ op ∈ extra, op.isSet = false) :
    ∀ op ∈ cacheHitOps iconCache key ++ extra, op.isSet = false := by
  intro op hop
  rcases List.mem_append.mp hop with h | h
  · cases iconCache with
    | none => simp [cacheHitOps] at h
    | some c =>
      simp only [cacheHitOps, List.mem_singleton] at h
      subst h
      rfl
  · exact hextra op h

/-- The cache calls of a miss followed by a store: the one `set` holds the key and
the stored icon, and it is there exactly when a cache exists. -/
theorem cacheStore_ops {C : Type} (api : IconCacheApi C) (iconCache : Option C)
    (key : WString) (icon : CString) :
    (∀ k v, CacheOp.set k v ∈ cacheHitOps iconCache key ++ (cacheStore api iconCache key icon).2 →
      iconCache.isSome = true ∧ k = key ∧ v = icon ∧
        (cacheHitOps iconCache key ++ (cacheStore api iconCache key icon).2).filter CacheOp.isSet
          = [CacheOp.set k v]) ∧
    (iconCache.isSome = true →
      CacheOp.set key icon ∈ cacheHitOps iconCache key ++ (cacheStore api iconCache key icon).2) ∧
    (iconCache = none →
      cacheHitOps iconCache key ++ (cacheStore api iconCache key icon).2 = [] ∧
      (cacheStore api iconCache key icon).1 = none) := by
  cases iconCache with
  | none => simp [cacheHitOps, cacheStore]
  | some c =>
    refine ⟨?_, ?_, ?_⟩
    · intro k v h
      simp only [cacheHitOps, cacheStore, List.singleton_append, List.mem_cons, List.mem_singleton,
        CacheOp.set.injEq, List.mem_nil_iff, or_false] at h
      rcases h with h | ⟨rfl, rfl⟩
      · cases h
      · simp [cacheHitOps, cacheStore, CacheOp.isSet, List.filter]
    · intro _
      simp [cacheHitOps, cacheStore]
    · intro h
      cases h

theorem dataUriHead_append_ne_nil (payload : CString) : dataUriHead ++ payload ≠ [] := by
  simp [dataUriHead]

theorem getWindowIcon_store {C : Type} (base64_encode : CString → CString)
    (api : IconCacheApi C) (P : Platform) (path : WString) (iconCache : Option C) :
    (∀ k v, CacheOp.set k v ∈ (getWindowIcon base64_encode api P path iconCache).ops →
      iconCache.isSome = true ∧ cacheHit api iconCache path = false ∧ k = path ∧ v ≠ [] ∧
      (getWindowIcon base64_encode api P path iconCache).val = .ok v ∧
      (getWindowIcon base64_encode api P path iconCache).ops.filter CacheOp.isSet
        = [CacheOp.set k v]) ∧
    (∀ v, iconCache.isSome = true → cacheHit api iconCache path = false → v ≠ [] →
      (getWindowIcon base64_encode api P path iconCache).val = .ok v →
      CacheOp.set path v ∈ (getWindowIcon base64_encode api P path iconCache).ops) ∧
    ((getWindowIcon base64_encode api P path iconCache).val = .ok [] →
      (getWindowIcon base64_encode api P path iconCache).cache = iconCache ∧
      ∀ op ∈ (getWindowIcon base64_encode api P path iconCache).ops, op.isSet = false) ∧
    (iconCache = none → (getWindowIcon base64_encode api P path iconCache).ops = []) := by
  rcases getWindowIcon_cases base64_encode api P path iconCache with
    ⟨hit, h⟩ | ⟨hmiss, h⟩ | ⟨hmiss, pngStream, hne, h⟩
  · rw [h]
    have hno := cacheHitOps_no_set iconCache path [CacheOp.get path]
      (fun op hop => by simp only [List.mem_singleton] at hop; subst hop; rfl)
    refine ⟨?_, ?_, ?_, ?_⟩
    · intro k v hmem
      have := hno _ hmem
      simp [CacheOp.isSet] at this
    · intro v _ hm
      rw [hit] at hm
      cases hm
    · intro _
      exact ⟨rfl, hno⟩
    · intro hnone
      subst hnone
      simp [cacheHit] at hit
  · rw [h]
    have hno := cacheHitOps_no_set iconCache path [] (fun op hop => by cases hop)
    rw [List.append_nil] at hno
    refine ⟨?_, ?_, ?_, ?_⟩
    · intro k v hmem
      have := hno _ hmem
      simp [CacheOp.isSet] at this
    · intro v _ _ hv hval
      simp only [Except.ok.injEq] at hval
      exact absurd hval.symm hv
    · intro _
      exact ⟨rfl, hno⟩
    · intro hnone
      subst hnone
      rfl
  · rw [h]
    obtain ⟨hset, hmem, hnone⟩ := cacheStore_ops api iconCache path
      (dataUriHead ++ encodeImageStream base64_encode pngStream)
    refine ⟨?_, ?_, ?_, ?_⟩
    · intro k v hkv
      obtain ⟨hsome, hk, hv, hfilter⟩ := hset k v hkv
      exact ⟨hsome, hmiss, hk, hv ▸ dataUriHead_append_ne_nil _, by rw [hv], hfilter⟩
    · intro v hsome _ _ hval
      simp only [Except.ok.injEq] at hval
      exact hval ▸ hmem hsome
    · intro hval
      simp only [Except.ok.injEq] at hval
      exact absurd hval (dataUriHead_append_ne_nil _)
    · intro hn
      exact (hnone hn).1

theorem getUWPIcon_store {C : Type} (base64_encode : CString → CString)
    (api : IconCacheApi C) (P : Platform) (hProc : HANDLE) (iconCache : Option C) :
    (∀ k v, CacheOp.set k v ∈ (getUWPIcon base64_encode api P hProc iconCache).ops →
      iconCache.isSome = true ∧ cacheHit api iconCache (getUWPPackagePath P hProc) = false ∧
      k = getUWPPackagePath P hProc ∧ v ≠ [] ∧
      (getUWPIcon base64_encode api P hProc iconCache).val = .ok v ∧
      (getUWPIcon base64_encode api P hProc iconCache).ops.filter CacheOp.isSet
        = [CacheOp.set k v]) ∧
    (∀ v, iconCache.isSome = true → cacheHit api iconCache (getUWPPackagePath P hProc) = false →
      v ≠ [] → (getUWPIcon base64_encode api P hProc iconCache).val = .ok v →
      CacheOp.set (getUWPPackagePath P hProc) v ∈
        (getUWPIcon base64_encode api P hProc iconCache).ops) ∧
    ((getUWPIcon base64_encode api P hProc iconCache).val = .ok [] ∨
        (∃ e, (getUWPIcon base64_encode api P hProc iconCache).val = .error e) →
      (getUWPIcon base64_encode api P hProc iconCache).cache = iconCache ∧
      ∀ op ∈ (getUWPIcon base64_encode api P hProc iconCache).ops, op.isSet = false) ∧
    (iconCache = none → (getUWPIcon base64_encode api P hProc iconCache).ops = []) := by
  rcases getUWPIcon_cases base64_encode api P hProc iconCache with
    ⟨_, h⟩ | ⟨hit, h⟩ | ⟨hmiss, h⟩ | ⟨hmiss, e, _, _, _, h⟩ | ⟨hmiss, pngStream, hne, h⟩
  · rw [h]
    refine ⟨?_, ?_, ?_, ?_⟩
    · intro k v hmem
      cases hmem
    · intro v _ _ hv hval
      simp only [Except.ok.injEq] at hval
      exact absurd hval.symm hv
    · intro _
      exact ⟨rfl, fun op hop => by cases hop⟩
    · intro _
      rfl
  · rw [h]
    have hno := cacheHitOps_no_set iconCache (getUWPPackagePath P hProc)
      [CacheOp.get (getUWPPackagePath P hProc)]
      (fun op hop => by simp only [List.mem_singleton] at hop; subst hop; rfl)
    refine ⟨?_, ?_, ?_, ?_⟩
    · intro k v hmem
      have := hno _ hmem
      simp [CacheOp.isSet] at this
    · intro v _ hm
      rw [hit] at hm
      cases hm
    · intro _
      exact ⟨rfl, hno⟩
    · intro hnone
      subst hnone
      simp [cacheHit] at hit
  · rw [h]
    have hno := cacheHitOps_no_set iconCache (getUWPPackagePath P hProc) []
      (fun op hop => by cases hop)
    rw [List.append_nil] at hno
    refine ⟨?_, ?_, ?_, ?_⟩
    · intro k v hmem
      have := hno _ hmem
      simp [CacheOp.isSet] at this
    · intro v _ _ hv hval
      simp only [Except.ok.injEq] at hval
      exact absurd hval.symm hv
    · intro _
      exact ⟨rfl, hno⟩
    · intro hnone
      subst hnone
      rfl
  · rw [h]
    have hno := cacheHitOps_no_set iconCache (getUWPPackagePath P hProc) []
      (fun op hop => by cases hop)
    rw [List.append_nil] at hno
    refine ⟨?_, ?_, ?_, ?_⟩
    · intro k v hmem
      have := hno _ hmem
      simp [CacheOp.isSet] at this
    · intro v _ _ _ hval
      cases hval
    · intro _
      exact ⟨rfl, hno⟩
    · intro hnone
      subst hnone
      rfl
  · rw [h]
    obtain ⟨hset, hmem, hnone⟩ := cacheStore_ops api iconCache (getUWPPackagePath P hProc)
      (dataUriHead ++ encodeImageStream base64_encode pngStream)
    refine ⟨?_, ?_, ?_, ?_⟩
    · intro k v hkv
      obtain ⟨hsome, hk, hv, hfilter⟩ := hset k v hkv
      exact ⟨hsome, hmiss, hk, hv ▸ dataUriHead_append_ne_nil _, by rw [hv], hfilter⟩
    · intro v hsome _ _ hval
      simp only [Except.ok.injEq] at hval
      exact hval ▸ hmem hsome
    · intro hval
      rcases hval with hval | ⟨e, hval⟩
      · simp only [Except.ok.injEq] at hval
        exact absurd hval (dataUriHead_append_ne_nil _)
      · cases hval
    · intro hn
      exact (hnone hn).1

theorem construct_zero_iconCache {C : Type} (api : IconCacheApi C) (encoderClsId : Int)
    (firstWatchId : Nat) (aw : ActiveWindow C)
    (hctor : ActiveWindow.construct api encoderClsId 0 firstWatchId = .ok aw) :
    aw.iconCache = none := by
  unfold ActiveWindow.construct at hctor
  split_ifs at hctor with h1 h2
  · exact absurd h2 (by decide)
  · simp only [Except.ok.injEq] at hctor
    subst hctor
    rfl

/-- C8: `getWindowIcon` and `getUWPIcon` store into the icon cache only on
success.  A `set` is made only when a cache exists, the lookup missed and the
returned icon is non-empty; it is then the only `set`, under the looked-up key
and with the returned icon as value, and it is made in that situation.  When
the returned icon is empty (or an exception leaves the function) nothing is
stored and the cache is unchanged.  On an instance constructed with capacity 0
no cache call is made at all; the constructor creates a cache exactly when the
capacity is positive. -/
theorem cache_written_only_on_success {C : Type} (base64_encode : CString → CString)
    (api : IconCacheApi C) (P : Platform) (path : WString) (hProc : HANDLE)
    (iconCache : Option C) :
    (∀ k v, CacheOp.set k v ∈ (getWindowIcon base64_encode api P path iconCache).ops →
      iconCache.isSome = true ∧ cacheHit api iconCache path = false ∧ k = path ∧ v ≠ [] ∧
      (getWindowIcon base64_encode api P path iconCache).val = .ok v ∧
      (getWindowIcon base64_encode api P path iconCache).ops.filter CacheOp.isSet
        = [CacheOp.set k v]) ∧
    (∀ k v, CacheOp.set k v ∈ (getUWPIcon base64_encode api P hProc iconCache).ops →
      iconCache.isSome = true ∧ cacheHit api iconCache (getUWPPackagePath P hProc) = false ∧
      k = getUWPPackagePath P hProc ∧ v ≠ [] ∧
      (getUWPIcon base64_encode api P hProc iconCache).val = .ok v ∧
      (getUWPIcon base64_encode api P hProc iconCache).ops.filter CacheOp.isSet
        = [CacheOp.set k v]) ∧
    (∀ v, iconCache.isSome = true → cacheHit api iconCache path = false → v ≠ [] →
      (getWindowIcon base64_encode api P path iconCache).val = .ok v →
      CacheOp.set path v ∈ (getWindowIcon base64_encode api P path iconCache).ops) ∧
    (∀ v, iconCache.isSome = true → cacheHit api iconCache (getUWPPackagePath P hProc) = false →
      v ≠ [] → (getUWPIcon base64_encode api P hProc iconCache).val = .ok v →
      CacheOp.set (getUWPPackagePath P hProc) v ∈
        (getUWPIcon base64_encode api P hProc iconCache).ops) ∧
    ((getWindowIcon base64_encode api P path iconCache).val = .ok [] →
      (getWindowIcon base64_encode api P path iconCache).cache = iconCache ∧
      ∀ op ∈ (getWindowIcon base64_encode api P path iconCache).ops, op.isSet = false) ∧
    ((getUWPIcon base64_encode api P hProc iconCache).val = .ok [] ∨
        (∃ e, (getUWPIcon base64_encode api P hProc iconCache).val = .error e) →
      (getUWPIcon base64_encode api P hProc iconCache).cache = iconCache ∧
      ∀ op ∈ (getUWPIcon base64_encode api P hProc iconCache).ops, op.isSet = false) ∧
    (∀ encoderClsId firstWatchId aw,
      ActiveWindow.construct api encoderClsId 0 firstWatchId = .ok aw →
      (getWindowIcon base64_encode api P path aw.iconCache).ops = [] ∧
      (getUWPIcon base64_encode api P hProc aw.iconCache).ops = [] ∧
      (getActiveWindow base64_encode api P aw.iconCache).ops = []) ∧
    (∀ encoderClsId iconCacheSize firstWatchId aw,
      ActiveWindow.construct api encoderClsId iconCacheSize firstWatchId = .ok aw →
      (aw.iconCache.isSome = true ↔ 0 < iconCacheSize)) := by
  obtain ⟨w1, w2, w3, w4⟩ := getWindowIcon_store base64_encode api P path iconCache
  obtain ⟨u1, u2, u3, u4⟩ := getUWPIcon_store base64_encode api P hProc iconCache
  refine ⟨w1, u1, w2, u2, w3, u3, ?_, ?_⟩
  rotate_left
  · intro encoderClsId iconCacheSize firstWatchId aw hctor
    unfold ActiveWindow.construct at hctor
    split_ifs at hctor with h1 h2
    · simp only [Except.ok.injEq] at hctor
      subst hctor
      simpa using h2
    · simp only [Except.ok.injEq] at hctor
      subst hctor
      simpa [ActiveWindow.declared] using h2
  intro encoderClsId firstWatchId aw hctor
  have hnone := construct_zero_iconCache api encoderClsId firstWatchId aw hctor
  refine ⟨(getWindowIcon_store base64_encode api P path aw.iconCache).2.2.2 hnone,
    (getUWPIcon_store base64_encode api P hProc aw.iconCache).2.2.2 hnone, ?_⟩
  rcases getActiveWindow_cases base64_encode api P aw.iconCache with
    h | ⟨p, _, hops, _⟩ | ⟨hp, _, hops, _⟩
  · rw [h]
  · rw [hops]
    exact (getWindowIcon_store base64_encode api P p aw.iconCache).2.2.2 hnone
  · rw [hops]
    exact (getUWPIcon_store base64_encode api P hp aw.iconCache).2.2.2 hnone

/-- C8 at a concrete input: on a cache miss with a rendered icon the cache calls
are one `has` and one `set` of the returned icon. -/
theorem cache_written_only_on_success_witness :
    (getWindowIcon stubEncode listCache iconPlatform "C:\\apps\\tool.exe".toList
      sampleEngine.iconCache).ops =
      [CacheOp.has "C:\\apps\\tool.exe".toList,
       CacheOp.set "C:\\apps\\tool.exe".toList "data:image/png;base64,AAA".toList] ∧
    (getWindowIcon stubEncode listCache iconPlatform "C:\\apps\\tool.exe".toList
      sampleEngine.iconCache).ops.filter CacheOp.isSet =
      [CacheOp.set "C:\\apps\\tool.exe".toList "data:image/png;base64,AAA".toList] :=
  ⟨rfl,
    ((cache_written_only_on_success stubEncode listCache iconPlatform
      "C:\\apps\\tool.exe".toList 0 sampleEngine.iconCache).1
      "C:\\apps\\tool.exe".toList "data:image/png;base64,AAA".toList
      (List.mem_cons_of_mem _ (List.mem_cons_self _ _))).2.2.2.2.2⟩

/-! ## Packaged applications -/

/-- C6, refuted as stated: the block `germanBlock` has the `FileDescription` entry of
the default pair 0x0409/0x04E4 (`Tool`), yet `getProcessName` returns the entry
of the first pair of the translation table (`Werkzeug`); and on `orphanBlock`,
whose first translation pair has no entry, it returns the empty string although
the default pair has one. -/
theorem getProcessName_ignores_default_pair :
    germanBlock.strings (localePath defaultLangCodePage)
      = some { len := 5, text := "Tool".toList } ∧
    getProcessName (versionPlatform germanBlock) "C:\\apps\\tool.exe".toList
      = "Werkzeug".toList ∧
    getProcessName (versionPlatform germanBlock) "C:\\apps\\tool.exe".toList
      ≠ "Tool".toList ∧
    orphanBlock.strings (localePath defaultLangCodePage)
      = some { len := 5, text := "Tool".toList } ∧
    getProcessName (versionPlatform orphanBlock) "C:\\apps\\tool.exe".toList = [] := by
  refine ⟨by decide, by decide, by decide, by decide, by decide⟩

/-- C6 as amended: for every version resource block that loads, `getProcessName`
selects the `FileDescription` entry of the first language/code-page pair of the
translation table whenever that table is present and non-empty, whether or not
the default pair has an entry; the default pair (0x0409, 0x04E4) is used only
when the table is absent or empty.  The result is the selected entry's string,
and the empty string when the selected pair has no entry or an entry of length
zero. -/
theorem getProcessName_prefers_first_translation (P : Platform) (path : WString)
    (data : VersionBlock)
    (hsize : P.GetFileVersionInfoSizeW path ≠ 0)
    (hload : P.GetFileVersionInfoW path = some data) :
    (∀ first rest, data.translation = some (first :: rest) →
      getProcessName P path =
        fileDescription data { lang := first.lang, codePage := first.codePage }) ∧
    (data.translation = none ∨ data.translation = some [] →
      getProcessName P path = fileDescription data { lang := 0x0409, codePage := 0x04E4 }) ∧
    (∀ pair, (∀ entry, data.strings (localePath pair) = some entry → entry.len = 0) →
      fileDescription data pair = []) ∧
    (∀ pair entry, data.strings (localePath pair) = some entry → entry.len ≠ 0 →
      fileDescription data pair = entry.text) := by
  have hname : getProcessName P path = fileDescription data (activeLangCodePage data) := by
    simp [getProcessName, hsize, hload, getProcessNameFromBlock]
  refine ⟨?_, ?_, ?_, ?_⟩
  · intro first rest ht
    rw [hname]
    simp [activeLangCodePage, ht]
  · intro ht
    rw [hname]
    rcases ht with ht | ht <;> simp [activeLangCodePage, ht, defaultLangCodePage]
  · intro pair h
    unfold fileDescription
    cases hs : data.strings (localePath pair) with
    | none => rfl
    | some entry => simp [h entry hs]
  · intro pair entry hs hlen
    simp [fileDescription, hs, hlen]

/-- C6 as amended, at concrete inputs: with a translation table the first pair's
entry is returned, without one the default pair's entry. -/
theorem getProcessName_prefers_first_translation_witness :
    getProcessName (versionPlatform germanBlock) "C:\\apps\\tool.exe".toList
      = fileDescription germanBlock { lang := 0x0407, codePage := 0x04B0 } ∧
    fileDescription germanBlock { lang := 0x0407, codePage := 0x04B0 } = "Werkzeug".toList ∧
    getProcessName (versionPlatform plainBlock) "C:\\apps\\tool.exe".toList
      = fileDescription plainBlock { lang := 0x0409, codePage := 0x04E4 } ∧
    fileDescription plainBlock { lang := 0x0409, codePage := 0x04E4 } = "Tool".toList :=
  ⟨(getProcessName_prefers_first_translation (versionPlatform germanBlock)
      "C:\\apps\\tool.exe".toList germanBlock (by decide) rfl).1 _ _ rfl,
    by decide,
    (getProcessName_prefers_first_translation (versionPlatform plainBlock)
      "C:\\apps\\tool.exe".toList plainBlock (by decide) rfl).2.1 (Or.inl rfl),
    by decide⟩

/-! ## Logo path of a packaged application -/

theorem wstring_insert_append (pre suf str : WString) :
    wstring_insert (pre ++ suf) (some pre.length) str = .ok (pre ++ str ++ suf) := by
  simp [wstring_insert]

/-- When the logo's file name has an extension (a dot followed by characters that
hold neither a dot nor a backslash) and the literal file does not exist, the
qualifier `.scale-100` is inserted right before that extension and the install
directory is left as it is. -/
theorem uwpLogoPath_with_extension (P : Platform) (pkgPath stem ext : WString)
    (hmissing : P.PathFileExistsW (pkgPath ++ "\\".toList ++ (stem ++ '.' :: ext)) = false)
    (hdot : '.' ∉ ext) (_hslash : '\\' ∉ ext) :
    uwpLogoPath P pkgPath (stem ++ '.' :: ext) =
      .ok (pkgPath ++ "\\".toList ++ (stem ++ ".scale-100".toList ++ '.' :: ext)) := by
  have hpos : find_last_of (pkgPath ++ "\\".toList ++ (stem ++ '.' :: ext)) ['.']
      = some (pkgPath ++ "\\".toList ++ stem).length := by
    have := find_last_of_append (pkgPath ++ "\\".toList ++ stem) ext ['.'] '.' (by decide)
      (fun y hy hmem => by
        have : y = '.' := by simpa using hmem
        exact hdot (this ▸ hy))
    simpa [List.append_assoc] using this
  unfold uwpLogoPath
  simp only [hmissing, Bool.not_false, if_true]
  rw [show ".".toList = ['.'] from rfl, hpos]
  have hsplit : pkgPath ++ "\\".toList ++ (stem ++ '.' :: ext)
      = (pkgPath ++ "\\".toList ++ stem) ++ '.' :: ext := by simp [List.append_assoc]
  rw [hsplit, wstring_insert_append]
  simp [List.append_assoc]

/-- C9 evaluated where the code departs from it: the package is installed in
`C:\Apps\Calc_1.0`, the manifest declares the logo `Assets\Logo` and no such file
exists.  The qualifier is inserted into the install directory: the path built
is `C:\Apps\Calc_1.scale-100.0\Assets\Logo`, which does not start with the
install directory, and that is the file `getUWPIcon` opens and encodes.  With
no dot anywhere in the path (`C:\Apps\Calc`, `Logo`) the insertion throws
`std::out_of_range`.  With the logo `Assets\Logo.png` the path is
`C:\Apps\Calc_1.0\Assets\Logo.scale-100.png`. -/
theorem uwpLogoPath_rewrites_install_directory :
    uwpLogoPath logoPlatform "C:\\Apps\\Calc_1.0".toList "Assets\\Logo".toList
      = .ok "C:\\Apps\\Calc_1.scale-100.0\\Assets\\Logo".toList ∧
    ("C:\\Apps\\Calc_1.0\\".toList.isPrefixOf
      "C:\\Apps\\Calc_1.scale-100.0\\Assets\\Logo".toList) = false ∧
    getUWPPackagePath logoPlatform 400 = "C:\\Apps\\Calc_1.0".toList ∧
    (getUWPIcon stubEncode listCache logoPlatform 400 none).val
      = .ok "data:image/png;base64,AAA".toList ∧
    uwpLogoPath logoPlatform "C:\\Apps\\Calc".toList "Logo".toList
      = .error Exn.out_of_range ∧
    uwpLogoPath logoPlatform "C:\\Apps\\Calc_1.0".toList "Assets\\Logo.png".toList
      = .ok "C:\\Apps\\Calc_1.0\\Assets\\Logo.scale-100.png".toList :=
  ⟨rfl, rfl, rfl, rfl, rfl, rfl⟩

/-! ## Notification delivery -/

theorem notifyEvery_eq (watches : List (Nat × watch_callback)) (info : Option WindowInfo) :
    notifyEvery watches info = (watches.map (fun w => (w.1, info)), false) := by
  induction watches with
  | nil => rfl
  | cons w rest ih =>
    obtain ⟨id, cb⟩ := w
    have hguard : tryInvoke cb info = false := by
      unfold tryInvoke
      cases cb info <;> rfl
    simp [notifyEvery, hguard, ih]

/-- A notification that passes both filters and whose resolution returns `info`
(null or a record): the handler returns normally with the lock released, having
invoked the callbacks of all registry entries with `info`. -/
theorem WinEventProcCb_delivers {C : Type} (base64_encode : CString → CString)
    (api : IconCacheApi C) (P : Platform) (aw : ActiveWindow C) (event : Nat) (hWindow : HWND)
    (info : Option WindowInfo)
    (hq : event = EVENT_SYSTEM_FOREGROUND ∨
      (event = EVENT_OBJECT_NAMECHANGE ∧ hWindow = P.GetForegroundWindow))
    (hres : (getActiveWindow base64_encode api P aw.iconCache).val = .ok info) :
    WinEventProcCb base64_encode api P aw event hWindow =
      ⟨none,
        { aw with iconCache := (getActiveWindow base64_encode api P aw.iconCache).cache,
                  mutexLocked := false },
        aw.watches.map (fun w => (w.1, info))⟩ := by
  have h1 : ¬ (event ≠ EVENT_SYSTEM_FOREGROUND ∧ event ≠ EVENT_OBJECT_NAMECHANGE) := by
    rcases hq with h | ⟨h, _⟩
    · exact fun hc => hc.1 h
    · exact fun hc => hc.2 h
  have h2 : ¬ (event = EVENT_OBJECT_NAMECHANGE ∧ hWindow ≠ P.GetForegroundWindow) := by
    rcases hq with h | ⟨_, h⟩
    · intro hc
      rw [h] at hc
      exact absurd hc.1 (by decide)
    · exact fun hc => hc.2 h
  unfold WinEventProcCb
  simp only [h1, h2, if_false, hres, notifyEvery_eq]
  simp

/-- A notification that fails a filter: nothing is resolved, nobody is called. -/
theorem WinEventProcCb_filtered {C : Type} (base64_encode : CString → CString)
    (api : IconCacheApi C) (P : Platform) (aw : ActiveWindow C) (event : Nat) (hWindow : HWND)
    (hq : ¬ (event = EVENT_SYSTEM_FOREGROUND ∨
      (event = EVENT_OBJECT_NAMECHANGE ∧ hWindow = P.GetForegroundWindow))) :
    (WinEventProcCb base64_encode api P aw event hWindow).calls = [] := by
  unfold WinEventProcCb
  by_cases h1 : event ≠ EVENT_SYSTEM_FOREGROUND ∧ event ≠ EVENT_OBJECT_NAMECHANGE
  · rw [if_pos h1]
  · have h2 : event = EVENT_OBJECT_NAMECHANGE ∧ hWindow ≠ P.GetForegroundWindow := by
      by_contra hc
      apply hq
      by_cases hf : event = EVENT_SYSTEM_FOREGROUND
      · exact Or.inl hf
      · right
        have hn : event = EVENT_OBJECT_NAMECHANGE := by
          by_contra hne
          exact h1 ⟨hf, hne⟩
        refine ⟨hn, ?_⟩
        by_contra hw
        exact hc ⟨hn, hw⟩
    rw [if_neg h1]
    simp only
    rw [if_pos h2]

/-- C3, refuted as stated: there is no foreground window, so `getActiveWindow`
returns null, and the handler of a focus-change notification still invokes both
registered callbacks, each with the null pointer. -/
theorem callbacks_invoked_with_null :
    (getActiveWindow stubEncode listCache Platform.blank watchedEngine.iconCache).val
      = .ok none ∧
    (WinEventProcCb stubEncode listCache Platform.blank watchedEngine
      EVENT_SYSTEM_FOREGROUND 0).calls = [(1, none), (2, none)] :=
  ⟨rfl, rfl⟩

/-- C3 as amended: for a notification that passes the filters (a focus change, or
a title change of the current foreground window) and whose resolution returns,
every registered callback is invoked with what `getActiveWindow` returned, the
null pointer included: the invocations are the registry entries, one each.  A
notification that fails a filter invokes no callback. -/
theorem callbacks_invoked_with_resolution {C : Type} (base64_encode : CString → CString)
    (api : IconCacheApi C) (P : Platform) (aw : ActiveWindow C) (event : Nat) (hWindow : HWND) :
    ((event = EVENT_SYSTEM_FOREGROUND ∨
        (event = EVENT_OBJECT_NAMECHANGE ∧ hWindow = P.GetForegroundWindow)) →
      ∀ info, (getActiveWindow base64_encode api P aw.iconCache).val = .ok info →
        (WinEventProcCb base64_encode api P aw event hWindow).calls
          = aw.watches.map (fun w => (w.1, info))) ∧
    (¬ (event = EVENT_SYSTEM_FOREGROUND ∨
        (event = EVENT_OBJECT_NAMECHANGE ∧ hWindow = P.GetForegroundWindow)) →
      (WinEventProcCb base64_encode api P aw event hWindow).calls = []) := by
  refine ⟨?_, WinEventProcCb_filtered base64_encode api P aw event hWindow⟩
  intro hq info hres
  rw [WinEventProcCb_delivers base64_encode api P aw event hWindow info hq hres]

/-- C3 as amended, at a concrete input: without foreground window both registered
callbacks receive the null pointer. -/
theorem callbacks_invoked_with_resolution_witness :
    (getActiveWindow stubEncode listCache Platform.blank watchedEngine.iconCache).val
      = .ok none ∧
    (WinEventProcCb stubEncode listCache Platform.blank watchedEngine
      EVENT_SYSTEM_FOREGROUND 0).calls
      = watchedEngine.watches.map (fun w => (w.1, none)) :=
  ⟨rfl,
    (callbacks_invoked_with_resolution stubEncode listCache Platform.blank watchedEngine
      EVENT_SYSTEM_FOREGROUND 0).1 (Or.inl rfl) none rfl⟩

theorem count_calls (watches : List (Nat × watch_callback)) (info : Option WindowInfo) (id : Nat) :
    (watches.map (fun w => (w.1, info))).count (id, info) = (watches.map Prod.fst).count id := by
  induction watches with
  | nil => rfl
  | cons w rest ih =>
    simp only [List.map_cons, List.count_cons, ih]
    by_cases h : w.1 = id
    · simp [h]
    · have : ¬ ((w.1, info) = (id, info)) := fun hc => h (Prod.mk.inj hc).1
      simp [h, this]

/-- Delivery once the resolution has returned: for every registry and whichever
of its callbacks raise an error, a notification that passes the filters and
whose `getActiveWindow` call returned `info` makes the handler invoke the
callback of every registry entry with that same `info`, each entry once; the
entries that follow a raising callback are still invoked; no error leaves the
handler, which returns normally with the registry lock released and the
registry unchanged. -/
theorem delivery_isolates_callback_errors {C : Type} (base64_encode : CString → CString)
    (api : IconCacheApi C) (P : Platform) (aw : ActiveWindow C) (event : Nat) (hWindow : HWND)
    (info : Option WindowInfo)
    (hq : event = EVENT_SYSTEM_FOREGROUND ∨
      (event = EVENT_OBJECT_NAMECHANGE ∧ hWindow = P.GetForegroundWindow))
    (hres : (getActiveWindow base64_encode api P aw.iconCache).val = .ok info) :
    (WinEventProcCb base64_encode api P aw event hWindow).calls
      = aw.watches.map (fun w => (w.1, info)) ∧
    ((aw.watches.map Prod.fst).Nodup → ∀ w ∈ aw.watches,
      (WinEventProcCb base64_encode api P aw event hWindow).calls.count (w.1, info) = 1) ∧
    (∀ pre w post, aw.watches = pre ++ w :: post → w.2 info = CallbackOutcome.raised →
      ∀ x ∈ post, (x.1, info) ∈ (WinEventProcCb base64_encode api P aw event hWindow).calls) ∧
    (WinEventProcCb base64_encode api P aw event hWindow).escaped = none ∧
    (WinEventProcCb base64_encode api P aw event hWindow).aw.mutexLocked = false ∧
    (WinEventProcCb base64_encode api P aw event hWindow).aw.watches = aw.watches := by
  rw [WinEventProcCb_delivers base64_encode api P aw event hWindow info hq hres]
  refine ⟨rfl, ?_, ?_, rfl, rfl, rfl⟩
  · intro hnodup w hw
    simp only
    rw [count_calls]
    exact List.count_eq_one_of_mem hnodup (List.mem_map_of_mem Prod.fst hw)
  · intro pre w post hsplit _ x hx
    simp only [hsplit, List.map_append, List.map_cons, List.mem_append, List.mem_cons]
    exact Or.inr (Or.inr (List.mem_map_of_mem (fun w => (w.1, info)) hx))

theorem loopBody_retrieved (r : Round) (h : r.getMsgRet ≠ -1) :
    loopBody r =
      if r.threadShouldExit then LoopStep.leave
      else LoopStep.dispatch { r.msg with message := WM_TIMER } := by
  unfold loopBody
  simp only [h, if_false]
  have : (WM_TIMER ≠ 0) := by decide
  simp [this]

theorem messageLoop_cons_next (r : Round) (rest : List Round) (h : loopBody r = LoopStep.next) :
    messageLoop (r :: rest) = messageLoop rest := by
  rw [messageLoop, h]

theorem messageLoop_cons_leave (r : Round) (rest : List Round) (h : loopBody r = LoopStep.leave) :
    messageLoop (r :: rest) = ([], true) := by
  rw [messageLoop, h]

theorem messageLoop_cons_dispatch (r : Round) (rest : List Round) (m : MSG)
    (h : loopBody r = LoopStep.dispatch m) :
    messageLoop (r :: rest) = (m :: (messageLoop rest).1, (messageLoop rest).2) := by
  rw [messageLoop, h]

theorem loopBody_failed (r : Round) (h : r.getMsgRet = -1) : loopBody r = LoopStep.next := by
  simp [loopBody, h]

theorem loopBody_running (r : Round) (h : r.getMsgRet ≠ -1) (hflag : r.threadShouldExit = false) :
    loopBody r = LoopStep.dispatch { r.msg with message := WM_TIMER } := by
  rw [loopBody_retrieved r h, hflag]
  rfl

theorem loopBody_exit (r : Round) (h : r.getMsgRet ≠ -1) (hflag : r.threadShouldExit = true) :
    loopBody r = LoopStep.leave := by
  rw [loopBody_retrieved r h, hflag]
  rfl

theorem messageLoop_append (pre rest : List Round)
    (hpre : ∀ x ∈ pre, x.getMsgRet = -1 ∨ x.threadShouldExit = false) :
    messageLoop (pre ++ rest) =
      (((pre.filter (fun x => decide (x.getMsgRet ≠ -1))).map
          (fun x => { x.msg with message := WM_TIMER })) ++ (messageLoop rest).1,
        (messageLoop rest).2) := by
  induction pre with
  | nil => simp
  | cons x xs ih =>
    have ihx := ih (fun y hy => hpre y (List.mem_cons_of_mem _ hy))
    by_cases hret : x.getMsgRet = -1
    · rw [List.cons_append, messageLoop_cons_next _ _ (loopBody_failed x hret), ihx]
      simp [List.filter_cons, hret]
    · have hflag : x.threadShouldExit = false := by
        rcases hpre x (List.mem_cons_self _ _) with h | h
        · exact absurd h hret
        · exact h
      rw [List.cons_append, messageLoop_cons_dispatch _ _ _ (loopBody_running x hret hflag), ihx]
      simp [List.filter_cons, hret]

theorem messageLoop_dispatches_timer (rounds : List Round) :
    ∀ m ∈ (messageLoop rounds).1, m.message = WM_TIMER := by
  induction rounds with
  | nil => intro m hm; simp [messageLoop] at hm
  | cons r rest ih =>
    intro m hm
    by_cases hret : r.getMsgRet = -1
    · rw [messageLoop_cons_next _ _ (loopBody_failed r hret)] at hm
      exact ih m hm
    · cases hflag : r.threadShouldExit with
      | true =>
        rw [messageLoop_cons_leave _ _ (loopBody_exit r hret hflag)] at hm
        simp at hm
      | false =>
        rw [messageLoop_cons_dispatch _ _ _ (loopBody_running r hret hflag)] at hm
        simp only [List.mem_cons] at hm
        rcases hm with hm | hm
        · rw [hm]
        · exact ih m hm

theorem mapErase_absent {β : Type} (m : List (Nat × β)) (key : Nat) (value : β) :
    (key, value) ∉ mapErase m key := by
  intro h
  simp [mapErase, List.mem_filter] at h

/-- C10: in the loop of `runWatchThread`, a round whose `GetMessage` result is not
-1 loads the shutdown flag whatever the message identifier is: the loop is left
without dispatching exactly when the flag is set, and otherwise the message is
dispatched with its identifier overwritten by `WM_TIMER`; every dispatched
message carries `WM_TIMER`.  When a retrieved message meets a set flag the
function returns: after the dispatches of the earlier retrieved messages the
timer is killed and the hook removed, and the hook's entry is erased from the
hook-ownership table. -/
theorem watch_thread_checks_flag_on_every_message (hHook : HWINEVENTHOOK) (timer self : Nat)
    (ctx : List (Nat × Nat)) :
    (∀ r : Round, r.getMsgRet ≠ -1 →
      loopBody r =
        if r.threadShouldExit then LoopStep.leave
        else LoopStep.dispatch { r.msg with message := WM_TIMER }) ∧
    (∀ r : Round, r.getMsgRet ≠ -1 → (loopBody r = LoopStep.leave ↔ r.threadShouldExit = true)) ∧
    (∀ rounds m,
      ThreadEffect.DispatchMessage m ∈ (runWatchThread hHook timer self ctx rounds).effects →
      m.message = WM_TIMER) ∧
    (∀ pre r post,
      (∀ x ∈ pre, x.getMsgRet = -1 ∨ x.threadShouldExit = false) →
      r.getMsgRet ≠ -1 → r.threadShouldExit = true →
      (runWatchThread hHook timer self ctx (pre ++ r :: post)).returned = true ∧
      (runWatchThread hHook timer self ctx (pre ++ r :: post)).effects =
        [ThreadEffect.SetWinEventHook hHook, ThreadEffect.SetTimer timer] ++
        ((pre.filter (fun x => decide (x.getMsgRet ≠ -1))).map
          (fun x => ThreadEffect.DispatchMessage { x.msg with message := WM_TIMER })) ++
        [ThreadEffect.KillTimer timer, ThreadEffect.UnhookWinEvent hHook] ∧
      (runWatchThread hHook timer self ctx (pre ++ r :: post)).winEventProcCbCtx =
        mapErase (mapAssign ctx hHook self) hHook ∧
      ∀ owner, (hHook, owner) ∉
        (runWatchThread hHook timer self ctx (pre ++ r :: post)).winEventProcCbCtx) := by
  refine ⟨loopBody_retrieved, ?_, ?_, ?_⟩
  · intro r h
    rw [loopBody_retrieved r h]
    cases r.threadShouldExit <;> simp
  · intro rounds m hm
    have hd := messageLoop_dispatches_timer rounds
    have hmem : m ∈ (messageLoop rounds).1 := by
      unfold runWatchThread at hm
      simp only at hm
      split_ifs at hm <;> simpa using hm
    exact hd m hmem
  · intro pre r post hpre hret hflag
    have hb : loopBody r = LoopStep.leave := loopBody_exit r hret hflag
    have hloop : messageLoop (pre ++ r :: post) =
        ((pre.filter (fun x => decide (x.getMsgRet ≠ -1))).map
          (fun x => { x.msg with message := WM_TIMER }), true) := by
      rw [messageLoop_append pre (r :: post) hpre, messageLoop_cons_leave _ _ hb]
      simp
    unfold runWatchThread
    simp only [hloop, if_true]
    refine ⟨trivial, ?_, trivial, fun owner => mapErase_absent _ _ _⟩
    simp [List.map_map, Function.comp]

/-- C10 at a concrete input: the `WM_PAINT` message is dispatched as `WM_TIMER`,
the `WM_MOUSEMOVE` message meets the set flag and ends the loop, after which
the timer is killed, the hook removed and the table entry erased. -/
theorem watch_thread_checks_flag_on_every_message_witness :
    (runWatchThread 5 9 1 [(4, 2)] sampleRounds).effects =
      [ThreadEffect.SetWinEventHook 5, ThreadEffect.SetTimer 9,
       ThreadEffect.DispatchMessage ⟨WM_TIMER, 7, 8⟩,
       ThreadEffect.KillTimer 9, ThreadEffect.UnhookWinEvent 5] ∧
    (runWatchThread 5 9 1 [(4, 2)] sampleRounds).winEventProcCbCtx = [(4, 2)] ∧
    (runWatchThread 5 9 1 [(4, 2)] sampleRounds).returned = true :=
  ⟨by decide, by decide,
    ((watch_thread_checks_flag_on_every_message 5 9 1 [(4, 2)]).2.2.2
      [{ getMsgRet := -1, msg := ⟨0, 0, 0⟩, threadShouldExit := true },
       { getMsgRet := 1, msg := ⟨0x000F, 7, 8⟩, threadShouldExit := false }]
      { getMsgRet := 1, msg := ⟨0x0200, 1, 2⟩, threadShouldExit := true }
      [{ getMsgRet := 1, msg := ⟨0x0113, 0, 0⟩, threadShouldExit := true }]
      (by decide) (by decide) rfl).1⟩

end PaymoActiveWindow
